import Mathlib

/-!
Verification development for `brainiak/isfc.py` (intersubject correlation
ISC / intersubject functional correlation ISFC).

The module under analysis is a single Python file.  Its two entry points
`isc` and `isfc` are embedded below as Lean functions over a shallow model
of NumPy arrays:

* values are idealized as exact rationals (`ℚ`); floating-point rounding is
  not modelled, matching the spec's "within floating tolerance" reading;
* every array carries an explicit `Dtype` tag, because the source threads a
  `float_type` parameter through its allocations via `.astype`;
* code that can raise returns `Except PyErr`;
* the external collaborators imported by the module — `scipy.stats.pearsonr`,
  `brainiak.fcma.util.compute_correlation`, `phase_randomize` and
  `p_from_null` from `brainiak.utils.utils` — are not part of the analysed
  file; they are taken as abstract function parameters whose types encode the
  shape contracts stated for them (same-shape output for `phase_randomize`,
  `[a,time] × [b,time] → [a,b]` for `compute_correlation`, scalar Pearson
  coefficient for `pearsonr`, same-shape p-map for `p_from_null`).

A second, heap-based embedding of the same two functions is given further
down in order to settle the frame property (the caller's input tensor object
is never mutated); there, Python objects live in an explicit store and every
element assignment of the source is a store write.
-/

namespace Brainiak

/-- NumPy dtypes that occur in this development.  The three supported float
precisions of the source's `float_type` parameter, plus `bool`/`int64` and a
generic tag `typeNum n` for the remaining built-in scalar type numbers
(needed because the source erroneously passes `num_perm` in the dtype slot of
`np.empty`, where an integer is interpreted as a type number). -/
inductive Dtype where
  | float16 | float32 | float64
  | bool | int64
  | typeNum (n : Nat)
  deriving DecidableEq, Repr

/-- Whether a dtype is one of the three floating precisions supported for
`float_type`. -/
def Dtype.isFloat : Dtype → Bool
  | .float16 | .float32 | .float64 => true
  | _ => false

/-- The dtype of `np.mean` over an array of dtype `d`: floating dtypes are
preserved, everything else is promoted to float64. -/
def meanDtype (d : Dtype) : Dtype :=
  if d.isFloat then d else .float64

/-- Truncation of a rational toward zero, as NumPy casting from float to an
integer dtype does. -/
def truncQ (q : ℚ) : ℤ :=
  if 0 ≤ q then ⌊q⌋ else ⌈q⌉

/-- Value conversion performed when a scalar is stored into an array of
dtype `d` (or when `.astype(d)` is applied).  Float rounding is idealized
(values kept exact); integer dtypes truncate toward zero (wrap-around at the
type width is not modelled — no claim evaluates values at such dtypes);
`bool` maps nonzero to 1. -/
def castVal (d : Dtype) (q : ℚ) : ℚ :=
  match d with
  | .float16 | .float32 | .float64 => q
  | .bool => if q = 0 then 0 else 1
  | .int64 => (truncQ q : ℚ)
  | .typeNum _ => (truncQ q : ℚ)

/-- Python exceptions that the embedded code can raise. -/
inductive PyErr where
  | typeError | indexError | valueError | nameError
  deriving DecidableEq, Repr

/-- Interpretation of a Python integer in the dtype argument slot of a NumPy
call: the built-in scalar type numbers 0–23 (NPY_BOOL .. NPY_HALF) name a
dtype, any other integer raises `TypeError` ("Cannot interpret ... as a data
type").  Only the numbers relevant to the claims are mapped to a named
constructor. -/
def npDtypeOfInt (n : ℤ) : Option Dtype :=
  if n = 0 then some .bool
  else if n = 7 then some .int64
  else if n = 11 then some .float32
  else if n = 12 then some .float64
  else if n = 23 then some .float16
  else if 0 ≤ n ∧ n ≤ 22 then some (.typeNum n.toNat)
  else none

/-- Dynamically shaped NumPy array (used for the null-summary arrays, whose
shape in the source depends on a buggy `np.empty` call).  `val` is queried
only at in-range index lists. -/
structure NDArr where
  shape : List Nat
  dtype : Dtype
  val : List Nat → ℚ

/-- Embedding of the source's `np.empty(n, d)` call with two positional
arguments: the first is the shape (a scalar, hence a 1-D result), the second
lands in the dtype slot.  `np.empty` contents are uninitialized; they are
modelled as zeros. -/
def npEmptyPos2 (n : Nat) (dtypeArg : ℤ) : Except PyErr NDArr :=
  match npDtypeOfInt dtypeArg with
  | none => .error .typeError
  | some dt => .ok { shape := [n], dtype := dt, val := fun _ => 0 }

/-- In-place `.astype` of a dynamically shaped array. -/
def ndAstype (a : NDArr) (d : Dtype) : NDArr :=
  { shape := a.shape, dtype := d, val := fun idx => castVal d (a.val idx) }

/-- Two-subscript element assignment `a[i, j] = x` on a dynamically shaped
array: NumPy basic indexing raises `IndexError` when the subscript count
exceeds the array's dimension count or an index is out of range (the indices
here come from `range()`, so negative-index wraparound is not needed). -/
def nd2Set (a : NDArr) (i j : Nat) (x : ℚ) : Except PyErr NDArr :=
  match a.shape with
  | [d0, d1] =>
      if i < d0 ∧ j < d1 then
        .ok { a with val := fun idx => if idx = [i, j] then castVal a.dtype x else a.val idx }
      else .error .indexError
  | _ => .error .indexError

/-- Maximum of a head element and a list. -/
def listMax (x : ℚ) (l : List ℚ) : ℚ := l.foldl max x

/-- Minimum of a head element and a list. -/
def listMin (x : ℚ) (l : List ℚ) : ℚ := l.foldl min x

/-- Embedding of `np.max(a, axis=0)`: reduces the leading axis; raises on a
zero-length reduction axis (and on a 0-d array, where axis 0 does not
exist). -/
def ndMaxAxis0 (a : NDArr) : Except PyErr NDArr :=
  match a.shape with
  | [] => .error .valueError
  | d :: rest =>
      if 0 < d then
        .ok { shape := rest, dtype := a.dtype,
              val := fun idx => listMax (a.val (0 :: idx))
                       (((List.range d).map (fun i => a.val (i :: idx)))) }
      else .error .valueError

/-- Embedding of `np.min(a, axis=0)`. -/
def ndMinAxis0 (a : NDArr) : Except PyErr NDArr :=
  match a.shape with
  | [] => .error .valueError
  | d :: rest =>
      if 0 < d then
        .ok { shape := rest, dtype := a.dtype,
              val := fun idx => listMin (a.val (0 :: idx))
                       (((List.range d).map (fun i => a.val (i :: idx)))) }
      else .error .valueError

/-- Statically shaped 1-D array. -/
structure NVec (n : Nat) where
  dtype : Dtype
  val : Fin n → ℚ

/-- Statically shaped 2-D array. -/
structure NMat (r c : Nat) where
  dtype : Dtype
  val : Fin r → Fin c → ℚ

/-- Statically shaped 3-D array, indexed [voxel, time, subject] like the
input `D` of the source. -/
structure NTen (v t s : Nat) where
  dtype : Dtype
  val : Fin v → Fin t → Fin s → ℚ

/-- Embedding of `np.max(x)` over a 1-D array: `ValueError` on a zero-size
array. -/
def vecMaxE {n : Nat} (x : NVec n) : Except PyErr ℚ :=
  if h : 0 < n then
    .ok (listMax (x.val ⟨0, h⟩) ((List.finRange n).map x.val))
  else .error .valueError

/-- Embedding of `np.min(x)` over a 1-D array. -/
def vecMinE {n : Nat} (x : NVec n) : Except PyErr ℚ :=
  if h : 0 < n then
    .ok (listMin (x.val ⟨0, h⟩) ((List.finRange n).map x.val))
  else .error .valueError

/-- Embedding of `np.max(m)` over all axes of a 2-D array (the source's
`np.max(tmp_ISFC, axis=leading_dims)` with `leading_dims = (0, 1)`). -/
def matMaxAllE {r c : Nat} (m : NMat r c) : Except PyErr ℚ :=
  if h : 0 < r ∧ 0 < c then
    .ok (listMax (m.val ⟨0, h.1⟩ ⟨0, h.2⟩)
          ((List.finRange r).flatMap (fun i => (List.finRange c).map (m.val i))))
  else .error .valueError

/-- Embedding of `np.min(m)` over all axes of a 2-D array. -/
def matMinAllE {r c : Nat} (m : NMat r c) : Except PyErr ℚ :=
  if h : 0 < r ∧ 0 < c then
    .ok (listMin (m.val ⟨0, h.1⟩ ⟨0, h.2⟩)
          ((List.finRange r).flatMap (fun i => (List.finRange c).map (m.val i))))
  else .error .valueError

/-- Source line 102 / 186: `group = np.mean(D[:, :, np.arange(n_subj) != loo_subj], axis=2)`.
The boolean mask selects the `s - 1` subjects other than `loo`; `np.mean`
divides by the number of selected subjects and keeps a floating dtype (for a
single subject the selection is empty and NumPy produces NaN with a runtime
warning; the rational model renders that division by zero as 0 — no claim
evaluates the value at that input). -/
def groupMean {v t s : Nat} (D : NTen v t s) (loo : Fin s) : NMat v t :=
  { dtype := meanDtype D.dtype
  , val := fun i τ => (∑ j : Fin s, if j ≠ loo then D.val i τ j else 0) / ((s - 1 : ℕ) : ℚ) }

/-- Source line 103 / 187: `subj = D[:, :, loo_subj]` (a read-only slice). -/
def subjSlice {v t s : Nat} (D : NTen v t s) (loo : Fin s) : NMat v t :=
  { dtype := D.dtype, val := fun i τ => D.val i τ loo }

/-- Source lines 101–105: `tmp_ISC = np.zeros(n_vox).astype(float_type)`
followed by the voxel loop `tmp_ISC[v] = stats.pearsonr(group[v, :], subj[v, :])[0]`.
Each stored scalar is cast to the array's dtype.  `pr` is the abstract
`scipy.stats.pearsonr(·,·)[0]` — external to the analysed file; per its
contract it returns a scalar (NaN, not an exception, on degenerate input). -/
def tmp_ISC {v t s : Nat} (pr : (n : Nat) → (Fin n → ℚ) → (Fin n → ℚ) → ℚ)
    (ft : Dtype) (D : NTen v t s) (loo : Fin s) : NVec v :=
  { dtype := ft
  , val := fun i => castVal ft (pr t (fun τ => (groupMean D loo).val i τ)
                                     (fun τ => (subjSlice D loo).val i τ)) }

/-- State threaded through the permutation loop of `isc`: the `ISC` array and,
when `return_p` was set, the pair `(max_null, min_null)` (the source leaves
these names unbound otherwise — referencing them unbound would raise, see
`PyErr.nameError`). -/
abbrev IscSt (v s : Nat) : Type := NMat v s × Option (NDArr × NDArr)

/-- Source lines 99–111, one permutation round of `isc`: the loop over the
left-out subject.  At round `p = 0` the column `ISC[:, loo_subj]` is written
(the assignment casts to the destination dtype); at later rounds
`max_null[loo_subj, p-1]` / `min_null[loo_subj, p-1]` are written. -/
def iscBody {v t s : Nat} (pr : (n : Nat) → (Fin n → ℚ) → (Fin n → ℚ) → ℚ)
    (ft : Dtype) (p : Nat) (D : NTen v t s) (st : IscSt v s) :
    Except PyErr (IscSt v s) :=
  (List.finRange s).foldlM (fun st loo => do
    let tmp := tmp_ISC pr ft D loo
    if p = 0 then
      pure (⟨{ st.1 with
               val := fun i j => if j = loo then castVal st.1.dtype (tmp.val i)
                                 else st.1.val i j }, st.2⟩ : IscSt v s)
    else
      match st.2 with
      | some (mx, mn) => do
          let mxv ← vecMaxE tmp
          let mx ← nd2Set mx loo (p - 1) mxv
          let mnv ← vecMinE tmp
          let mn ← nd2Set mn loo (p - 1) mnv
          pure (⟨st.1, some (mx, mn)⟩ : IscSt v s)
      | none => throw .nameError) st

/-- Source lines 98 and 113–114: the permutation loop `for p in range(n_perm + 1)`.
After each round's body (including the last) the local name `D` is rebound to
`phase_randomize(D, random_state)`; `prf` is the abstract `phase_randomize`,
whose contract fixes the output shape to the input shape. -/
def permLoop {v t s : Nat} {σ : Type}
    (body : Nat → NTen v t s → σ → Except PyErr σ)
    (prf : {v' t' s' : Nat} → NTen v' t' s' → ℤ → NTen v' t' s') (rs : ℤ) :
    Nat → Nat → NTen v t s → σ → Except PyErr σ
  | _, 0, _, acc => .ok acc
  | p, r + 1, D, acc =>
      (body p D acc) >>= (fun acc' => permLoop body prf rs (p + 1) r (prf D rs) acc')

/-- Source line 117 / 205: `np.mean(ISC, axis=1)` — subject-axis average of a
2-D statistic array (dtype follows NumPy's mean promotion; for a float array
it is preserved). -/
def matMeanAxis1 {r c : Nat} (m : NMat r c) : NVec r :=
  { dtype := meanDtype m.dtype, val := fun i => (∑ j : Fin c, m.val i j) / (c : ℚ) }

/-- Dynamic return of `isc`: a bare statistic array (1-D if subject-collapsed,
2-D otherwise) or a (statistic, p-value) pair. -/
inductive IscRet (v s : Nat) where
  | stat1 (a : NVec v)
  | stat2 (a : NMat v s)
  | withP1 (a p : NVec v)
  | withP2 (a p : NMat v s)

/-- Embedding of `isc` (source lines 38–126).  The abstract externals:
`pr` is `scipy.stats.pearsonr(·,·)[0]`; `prf` is `phase_randomize`
(shape-preserving by contract); `pfn1`/`pfn2` are `p_from_null` at the two
observed-map shapes it is called with (arguments: observed map, `two_sided`,
`memory_saving`, `max_null_input`, `min_null_input`; same-shape output by
contract).  The shape accesses `D.shape[0]` / `D.shape[2]` of lines 86–87 are
the type indices `v` / `s`. -/
def isc (pr : (n : Nat) → (Fin n → ℚ) → (Fin n → ℚ) → ℚ)
    (prf : {v' t' s' : Nat} → NTen v' t' s' → ℤ → NTen v' t' s')
    (pfn1 : (n : Nat) → NVec n → Bool → Bool → NDArr → NDArr → NVec n)
    (pfn2 : (r c : Nat) → NMat r c → Bool → Bool → NDArr → NDArr → NMat r c)
    {v t s : Nat} (D : NTen v t s)
    (collapse_subj : Bool := true) (return_p : Bool := false)
    (num_perm : ℤ := 1000) (two_sided : Bool := false)
    (random_state : ℤ := 0) (float_type : Dtype := .float64) :
    Except PyErr (IscRet v s) := do
  -- lines 89–94: `if return_p:` allocate the null summaries (note the source
  -- calls `np.empty(n_subj, num_perm)` — `num_perm` lands in the dtype slot);
  -- `n_perm = num_perm` there, else `n_perm = 0`
  let nulls ← if return_p then do
      let mx ← npEmptyPos2 s num_perm
      let mx := ndAstype mx float_type
      let mn ← npEmptyPos2 s num_perm
      let mn := ndAstype mn float_type
      pure (some (mx, mn))
    else pure none
  let n_perm : ℤ := if return_p then num_perm else 0
  -- line 96: `ISC = np.zeros((n_vox, n_subj)).astype(float_type)`
  let ISC0 : NMat v s := { dtype := float_type, val := fun _ _ => 0 }
  -- lines 98–114: the permutation loop (`range` of a negative bound is empty)
  let st ← permLoop (iscBody pr float_type) prf random_state 0 (n_perm + 1).toNat D
             (⟨ISC0, nulls⟩ : IscSt v s)
  -- lines 116–126: optional subject collapse, optional p computation
  if collapse_subj then do
    let ISC := matMeanAxis1 st.1
    if return_p then
      match st.2 with
      | some (mx, mn) => do
          let mx ← ndMaxAxis0 mx
          let mn ← ndMinAxis0 mn
          let pv := pfn1 v ISC two_sided true mx mn
          pure (.withP1 ISC pv)
      | none => throw .nameError
    else pure (.stat1 ISC)
  else do
    let ISC := st.1
    if return_p then
      match st.2 with
      | some (mx, mn) => do
          let mx ← ndMaxAxis0 mx
          let mn ← ndMinAxis0 mn
          let pv := pfn2 v s ISC two_sided true mx mn
          pure (.withP2 ISC pv)
      | none => throw .nameError
    else pure (.stat2 ISC)

/-- Source lines 188–190: `tmp_ISFC = compute_correlation(group, subj).astype(float_type)`
followed by the symmetrization `tmp_ISFC = (tmp_ISFC + tmp_ISFC.T) / 2`.
`cc` is the abstract `compute_correlation` of `brainiak.fcma.util` (external
to the analysed file; its contract fixes the output shape to
[rows of first argument, rows of second argument]). -/
def tmp_ISFC {v t s : Nat}
    (cc : (a b n : Nat) → NMat a n → NMat b n → NMat a b)
    (ft : Dtype) (D : NTen v t s) (loo : Fin s) : NMat v v :=
  let m : NMat v v := cc v v t (groupMean D loo) (subjSlice D loo)
  let m : NMat v v := { dtype := ft, val := fun i j => castVal ft (m.val i j) }
  -- true division by the Python int 2 keeps a floating dtype and promotes an
  -- integer or boolean dtype to float64 — the same map as NumPy's mean
  { dtype := meanDtype m.dtype, val := fun i j => (m.val i j + m.val j i) / 2 }

/-- State threaded through the permutation loop of `isfc`: the `ISFC` array
and, when `return_p` was set, `(max_null, min_null)`. -/
abbrev IsfcSt (v s : Nat) : Type := NTen v v s × Option (NDArr × NDArr)

/-- Source lines 184–199, one permutation round of `isfc`: the loop over the
left-out subject (its bound, line 185, is `range(D.shape[2])` — the current
round's tensor, which by the shape contract of `phase_randomize` equals the
input's subject count `s`).  At round `p = 0` the slice `ISFC[:, :, loo_subj]`
is written; at later rounds the global max/min of the symmetrized correlation
matrix go to `max_null[loo_subj, p-1]` / `min_null[loo_subj, p-1]`. -/
def isfcBody {v t s : Nat}
    (cc : (a b n : Nat) → NMat a n → NMat b n → NMat a b)
    (ft : Dtype) (p : Nat) (D : NTen v t s) (st : IsfcSt v s) :
    Except PyErr (IsfcSt v s) :=
  (List.finRange s).foldlM (fun st loo => do
    let tmp := tmp_ISFC cc ft D loo
    if p = 0 then
      pure (⟨{ st.1 with
               val := fun i j k => if k = loo then castVal st.1.dtype (tmp.val i j)
                                   else st.1.val i j k }, st.2⟩ : IsfcSt v s)
    else
      match st.2 with
      | some (mx, mn) => do
          let mxv ← matMaxAllE tmp
          let mx ← nd2Set mx loo (p - 1) mxv
          let mnv ← matMinAllE tmp
          let mn ← nd2Set mn loo (p - 1) mnv
          pure (⟨st.1, some (mx, mn)⟩ : IsfcSt v s)
      | none => throw .nameError) st

/-- Source line 205: `np.mean(ISFC, axis=2)` — subject-axis average of the
3-D statistic array. -/
def tenMeanAxis2 {v w s : Nat} (T : NTen v w s) : NMat v w :=
  { dtype := meanDtype T.dtype, val := fun i j => (∑ k : Fin s, T.val i j k) / (s : ℚ) }

/-- Dynamic return of `isfc`: a bare statistic array (2-D if subject-collapsed,
3-D otherwise) or a (statistic, p-value) pair. -/
inductive IsfcRet (v s : Nat) where
  | stat2 (a : NMat v v)
  | stat3 (a : NTen v v s)
  | withP2 (a p : NMat v v)
  | withP3 (a p : NTen v v s)

/-- Embedding of `isfc` (source lines 129–214).  Abstract externals as in
`isc`, with `cc` the all-pairs correlation kernel `compute_correlation` and
`pfn2`/`pfn3` the `p_from_null` instances at the two observed-map shapes this
function calls it with. -/
def isfc (cc : (a b n : Nat) → NMat a n → NMat b n → NMat a b)
    (prf : {v' t' s' : Nat} → NTen v' t' s' → ℤ → NTen v' t' s')
    (pfn2 : (r c : Nat) → NMat r c → Bool → Bool → NDArr → NDArr → NMat r c)
    (pfn3 : (a b c : Nat) → NTen a b c → Bool → Bool → NDArr → NDArr → NTen a b c)
    {v t s : Nat} (D : NTen v t s)
    (collapse_subj : Bool := true) (return_p : Bool := false)
    (num_perm : ℤ := 1000) (two_sided : Bool := false)
    (random_state : ℤ := 0) (float_type : Dtype := .float64) :
    Except PyErr (IsfcRet v s) := do
  -- lines 174–179: null-summary allocation under `return_p` (same misuse of
  -- `np.empty(n_subj, num_perm)` as in `isc`)
  let nulls ← if return_p then do
      let mx ← npEmptyPos2 s num_perm
      let mx := ndAstype mx float_type
      let mn ← npEmptyPos2 s num_perm
      let mn := ndAstype mn float_type
      pure (some (mx, mn))
    else pure none
  let n_perm : ℤ := if return_p then num_perm else 0
  -- line 181: `ISFC = np.zeros((n_vox, n_vox, n_subj)).astype(float_type)`
  let ISFC0 : NTen v v s := { dtype := float_type, val := fun _ _ _ => 0 }
  -- lines 183–202: the permutation loop
  let st ← permLoop (isfcBody cc float_type) prf random_state 0 (n_perm + 1).toNat D
             (⟨ISFC0, nulls⟩ : IsfcSt v s)
  -- lines 204–214: optional subject collapse, optional p computation
  if collapse_subj then do
    let ISFC := tenMeanAxis2 st.1
    if return_p then
      match st.2 with
      | some (mx, mn) => do
          let mx ← ndMaxAxis0 mx
          let mn ← ndMinAxis0 mn
          let pv := pfn2 v v ISFC two_sided true mx mn
          pure (.withP2 ISFC pv)
      | none => throw .nameError
    else pure (.stat2 ISFC)
  else do
    let ISFC := st.1
    if return_p then
      match st.2 with
      | some (mx, mn) => do
          let mx ← ndMaxAxis0 mx
          let mn ← ndMinAxis0 mn
          let pv := pfn3 v v s ISFC two_sided true mx mn
          pure (.withP3 ISFC pv)
      | none => throw .nameError
    else pure (.stat3 ISFC)

/-! ### Result projections and symmetry predicate -/

/-- Whether an `Except` computation completed without raising. -/
def exceptOk {ε α : Type} : Except ε α → Bool
  | .ok _ => true
  | .error _ => false

/-- Dtype of the statistic array inside an `isc` return value. -/
def IscRet.statDtype {v s : Nat} : IscRet v s → Dtype
  | .stat1 a => a.dtype
  | .stat2 a => a.dtype
  | .withP1 a _ => a.dtype
  | .withP2 a _ => a.dtype

/-- Dtype of the statistic array inside an `isfc` return value. -/
def IsfcRet.statDtype {v s : Nat} : IsfcRet v s → Dtype
  | .stat2 a => a.dtype
  | .stat3 a => a.dtype
  | .withP2 a _ => a.dtype
  | .withP3 a _ => a.dtype

/-- Symmetry of an `isfc` return value in its two voxel axes, for the
collapsed and the uncollapsed form alike. -/
def IsfcRetSymm {v s : Nat} : IsfcRet v s → Prop
  | .stat2 a => ∀ i j, a.val i j = a.val j i
  | .stat3 a => ∀ i j k, a.val i j k = a.val j i k
  | .withP2 a _ => ∀ i j, a.val i j = a.val j i
  | .withP3 a _ => ∀ i j k, a.val i j k = a.val j i k

/-! ### Spec-side formulation of the permutation loop (for the cumulative-
randomization claim).  These definitions follow the spec's words — "each
permutation round uses data randomized once more than the last", a strict
left-to-right fold — and are compared with the source-derived `permLoop`. -/

/-- The tensor the spec says round `k` operates on: `D` randomized `k`
times in sequence (`k = 0` is the original data). -/
def roundTensor (prf : {v' t' s' : Nat} → NTen v' t' s' → ℤ → NTen v' t' s')
    (rs : ℤ) {v t s : Nat} (D : NTen v t s) (k : Nat) : NTen v t s :=
  (fun T => prf T rs)^[k] D

/-- The permutation loop as the spec describes it: a fold over the round
indices `0 .. r-1` in which round `k` is applied to `roundTensor prf rs D k`. -/
def permLoopSpec {v t s : Nat} {σ : Type}
    (body : Nat → NTen v t s → σ → Except PyErr σ)
    (prf : {v' t' s' : Nat} → NTen v' t' s' → ℤ → NTen v' t' s') (rs : ℤ)
    (D : NTen v t s) (r : Nat) (acc : σ) : Except PyErr σ :=
  (List.range r).foldlM (fun acc k => body k (roundTensor prf rs D k) acc) acc

/-- Modelled from the spec: `isc` with its permutation loop written in the
spec's indexed-fold form (§4.5 / §9 of the spec), to be compared with the
source-derived `isc`.  Identical to `isc` except that the loop is
`permLoopSpec`. -/
def iscViaFold (pr : (n : Nat) → (Fin n → ℚ) → (Fin n → ℚ) → ℚ)
    (prf : {v' t' s' : Nat} → NTen v' t' s' → ℤ → NTen v' t' s')
    (pfn1 : (n : Nat) → NVec n → Bool → Bool → NDArr → NDArr → NVec n)
    (pfn2 : (r c : Nat) → NMat r c → Bool → Bool → NDArr → NDArr → NMat r c)
    {v t s : Nat} (D : NTen v t s)
    (collapse_subj : Bool := true) (return_p : Bool := false)
    (num_perm : ℤ := 1000) (two_sided : Bool := false)
    (random_state : ℤ := 0) (float_type : Dtype := .float64) :
    Except PyErr (IscRet v s) := do
  let nulls ← if return_p then do
      let mx ← npEmptyPos2 s num_perm
      let mx := ndAstype mx float_type
      let mn ← npEmptyPos2 s num_perm
      let mn := ndAstype mn float_type
      pure (some (mx, mn))
    else pure none
  let n_perm : ℤ := if return_p then num_perm else 0
  let ISC0 : NMat v s := { dtype := float_type, val := fun _ _ => 0 }
  let st ← permLoopSpec (iscBody pr float_type) prf random_state D (n_perm + 1).toNat
             (⟨ISC0, nulls⟩ : IscSt v s)
  if collapse_subj then do
    let ISC := matMeanAxis1 st.1
    if return_p then
      match st.2 with
      | some (mx, mn) => do
          let mx ← ndMaxAxis0 mx
          let mn ← ndMinAxis0 mn
          let pv := pfn1 v ISC two_sided true mx mn
          pure (.withP1 ISC pv)
      | none => throw .nameError
    else pure (.stat1 ISC)
  else do
    let ISC := st.1
    if return_p then
      match st.2 with
      | some (mx, mn) => do
          let mx ← ndMaxAxis0 mx
          let mn ← ndMinAxis0 mn
          let pv := pfn2 v s ISC two_sided true mx mn
          pure (.withP2 ISC pv)
      | none => throw .nameError
    else pure (.stat2 ISC)

/-- Modelled from the spec: `isfc` with its permutation loop in the spec's
indexed-fold form, to be compared with the source-derived `isfc`. -/
def isfcViaFold (cc : (a b n : Nat) → NMat a n → NMat b n → NMat a b)
    (prf : {v' t' s' : Nat} → NTen v' t' s' → ℤ → NTen v' t' s')
    (pfn2 : (r c : Nat) → NMat r c → Bool → Bool → NDArr → NDArr → NMat r c)
    (pfn3 : (a b c : Nat) → NTen a b c → Bool → Bool → NDArr → NDArr → NTen a b c)
    {v t s : Nat} (D : NTen v t s)
    (collapse_subj : Bool := true) (return_p : Bool := false)
    (num_perm : ℤ := 1000) (two_sided : Bool := false)
    (random_state : ℤ := 0) (float_type : Dtype := .float64) :
    Except PyErr (IsfcRet v s) := do
  let nulls ← if return_p then do
      let mx ← npEmptyPos2 s num_perm
      let mx := ndAstype mx float_type
      let mn ← npEmptyPos2 s num_perm
      let mn := ndAstype mn float_type
      pure (some (mx, mn))
    else pure none
  let n_perm : ℤ := if return_p then num_perm else 0
  let ISFC0 : NTen v v s := { dtype := float_type, val := fun _ _ _ => 0 }
  let st ← permLoopSpec (isfcBody cc float_type) prf random_state D (n_perm + 1).toNat
             (⟨ISFC0, nulls⟩ : IsfcSt v s)
  if collapse_subj then do
    let ISFC := tenMeanAxis2 st.1
    if return_p then
      match st.2 with
      | some (mx, mn) => do
          let mx ← ndMaxAxis0 mx
          let mn ← ndMinAxis0 mn
          let pv := pfn2 v v ISFC two_sided true mx mn
          pure (.withP2 ISFC pv)
      | none => throw .nameError
    else pure (.stat2 ISFC)
  else do
    let ISFC := st.1
    if return_p then
      match st.2 with
      | some (mx, mn) => do
          let mx ← ndMaxAxis0 mx
          let mn ← ndMinAxis0 mn
          let pv := pfn3 v v s ISFC two_sided true mx mn
          pure (.withP3 ISFC pv)
      | none => throw .nameError
    else pure (.stat3 ISFC)

/-! ### Heap-based embedding

Python arrays are mutable objects.  To settle whether `isc`/`isfc` ever
mutate the caller's input tensor, the same source lines are embedded once
more over an explicit object store: every name holds an object id, every
element assignment of the source is a store write at the id the name holds,
and `phase_randomize` allocates a fresh object (its contract: "does not
mutate D in place; returns a new tensor"). -/

/-- A Python object held in the store. -/
inductive HVal where
  | hTen (v t s : Nat) (T : NTen v t s)
  | hMat (r c : Nat) (M : NMat r c)
  | hVec (n : Nat) (x : NVec n)
  | hArr (a : NDArr)
  | hPair (a b : HVal)
  | hNone

/-- The object store: an allocation counter and the contents at each id
(ids at or above `ctr` are free). -/
structure Heap where
  ctr : Nat
  mem : Nat → HVal

/-- Allocate a fresh object, returning its id. -/
def halloc (h : Heap) (o : HVal) : Nat × Heap :=
  (h.ctr, ⟨h.ctr + 1, fun n => if n = h.ctr then o else h.mem n⟩)

/-- Overwrite the object at an existing id (an in-place array update). -/
def hwrite (h : Heap) (i : Nat) (o : HVal) : Heap :=
  ⟨h.ctr, fun n => if n = i then o else h.mem n⟩

/-- Read a 3-D tensor of the given shape at an id.  A non-tensor object or a
shape mismatch cannot occur in runs started from a well-formed call (the
`phase_randomize` contract preserves shape); the guards make the dynamic
read total. -/
def readTenAt (h : Heap) (i : Nat) (v t s : Nat) : Except PyErr (NTen v t s) :=
  match h.mem i with
  | .hTen v' t' s' T =>
      if hv : v' = v then
        if ht : t' = t then
          if hs : s' = s then
            .ok { dtype := T.dtype
                , val := fun a b c =>
                    T.val (Fin.cast hv.symm a) (Fin.cast ht.symm b) (Fin.cast hs.symm c) }
          else .error .indexError
        else .error .indexError
      else .error .indexError
  | _ => .error .typeError

/-- Read a 2-D array of the given shape at an id. -/
def readMatAt (h : Heap) (i : Nat) (r c : Nat) : Except PyErr (NMat r c) :=
  match h.mem i with
  | .hMat r' c' M =>
      if hr : r' = r then
        if hc : c' = c then
          .ok { dtype := M.dtype
              , val := fun a b => M.val (Fin.cast hr.symm a) (Fin.cast hc.symm b) }
        else .error .indexError
      else .error .indexError
  | _ => .error .typeError

/-- Read a 3-D array of the given shape at an id. -/
def readTen3At (h : Heap) (i : Nat) (v w s : Nat) : Except PyErr (NTen v w s) :=
  readTenAt h i v w s

/-- Read a dynamically shaped array at an id. -/
def readArrAt (h : Heap) (i : Nat) : Except PyErr NDArr :=
  match h.mem i with
  | .hArr a => .ok a
  | _ => .error .typeError

/-- Source line 114 / 202: `D = phase_randomize(D, random_state)` — reads the
tensor the name currently denotes, allocates the new tensor the collaborator
returns, and yields the id the name is rebound to. -/
def prfStepH (prf : {v' t' s' : Nat} → NTen v' t' s' → ℤ → NTen v' t' s')
    (rs : ℤ) (dv : Nat) (h : Heap) : (Except PyErr Nat) × Heap :=
  match h.mem dv with
  | .hTen v t s T =>
      let (i, h') := halloc h (.hTen v t s (prf T rs))
      (.ok i, h')
  | _ => (.error .typeError, h)

/-- Sequential composition of store steps over a list, stopping at the first
raised exception (the store at that point is kept, as in Python). -/
def foldH {α : Type} (f : α → Heap → (Except PyErr Unit) × Heap) :
    List α → Heap → (Except PyErr Unit) × Heap
  | [], h => (.ok (), h)
  | a :: l, h =>
      match f a h with
      | (.ok _, h') => foldH f l h'
      | (.error e, h') => (.error e, h')

/-- One left-out-subject step of `isc`'s inner loop (lines 101–111) in store
form.  `np.zeros` allocates `tmp_ISC`; the voxel loop of lines 104–105 writes
only into that fresh object and is folded into one store of the filled
vector; line 108 writes the `ISC` column in place; lines 110–111 write the
null-summary entries in place. -/
def iscLooStepH (pr : (n : Nat) → (Fin n → ℚ) → (Fin n → ℚ) → ℚ) (ft : Dtype)
    {v t s : Nat} (iscId : Nat) (nulls : Option (Nat × Nat)) (p : Nat)
    (D : NTen v t s) (loo : Fin s) (h : Heap) : (Except PyErr Unit) × Heap :=
  let tmp := tmp_ISC pr ft D loo
  let (tmpId, h) := halloc h (.hVec v { dtype := ft, val := fun _ => 0 })
  let h := hwrite h tmpId (.hVec v tmp)
  if p = 0 then
    match readMatAt h iscId v s with
    | .error e => (.error e, h)
    | .ok M =>
        (.ok (), hwrite h iscId (.hMat v s
          { dtype := M.dtype
          , val := fun i j => if j = loo then castVal M.dtype (tmp.val i) else M.val i j }))
  else
    match nulls with
    | none => (.error .nameError, h)
    | some (mxId, mnId) =>
        match readArrAt h mxId with
        | .error e => (.error e, h)
        | .ok mx =>
          match vecMaxE tmp with
          | .error e => (.error e, h)
          | .ok mxv =>
            match nd2Set mx loo (p - 1) mxv with
            | .error e => (.error e, h)
            | .ok mx' =>
              let h := hwrite h mxId (.hArr mx')
              match readArrAt h mnId with
              | .error e => (.error e, h)
              | .ok mn =>
                match vecMinE tmp with
                | .error e => (.error e, h)
                | .ok mnv =>
                  match nd2Set mn loo (p - 1) mnv with
                  | .error e => (.error e, h)
                  | .ok mn' => (.ok (), hwrite h mnId (.hArr mn'))

/-- One permutation round of `isc` (lines 99–111) in store form: read the
tensor the name `D` currently holds, then run the left-out-subject loop. -/
def iscBodyH (pr : (n : Nat) → (Fin n → ℚ) → (Fin n → ℚ) → ℚ) (ft : Dtype)
    (v t s : Nat) (iscId : Nat) (nulls : Option (Nat × Nat))
    (p : Nat) (dv : Nat) (h : Heap) : (Except PyErr Unit) × Heap :=
  match readTenAt h dv v t s with
  | .error e => (.error e, h)
  | .ok D => foldH (fun loo h => iscLooStepH pr ft iscId nulls p D loo h) (List.finRange s) h

/-- The permutation loop (lines 98 / 183 plus the rebinding at 114 / 202) in
store form: after every round's body, `D` is rebound to the freshly
allocated phase-randomized tensor. -/
def permLoopH (body : Nat → Nat → Heap → (Except PyErr Unit) × Heap)
    (prfStep : Nat → Heap → (Except PyErr Nat) × Heap) :
    Nat → Nat → Nat → Heap → (Except PyErr Unit) × Heap
  | _, 0, _, h => (.ok (), h)
  | p, r + 1, dv, h =>
      match body p dv h with
      | (.error e, h') => (.error e, h')
      | (.ok _, h') =>
          match prfStep dv h' with
          | (.error e, h'') => (.error e, h'')
          | (.ok dv', h'') => permLoopH body prfStep (p + 1) r dv' h''

/-- Lines 116–126 of `isc` in store form: the subject collapse, the null
reduction and the p computation.  This section reads and allocates but never
writes an existing object. -/
def iscHeapPost (pfn1 : (n : Nat) → NVec n → Bool → Bool → NDArr → NDArr → NVec n)
    (pfn2 : (r c : Nat) → NMat r c → Bool → Bool → NDArr → NDArr → NMat r c)
    (v s : Nat) (iscId : Nat) (nulls : Option (Nat × Nat))
    (collapse_subj return_p two_sided : Bool) (h : Heap) : (Except PyErr HVal) × Heap :=
  match readMatAt h iscId v s with
  | .error e => (.error e, h)
  | .ok M =>
    if collapse_subj then
      let h := (halloc h (.hVec v (matMeanAxis1 M))).2
      if return_p then
        match nulls with
        | none => (.error .nameError, h)
        | some (mxId, mnId) =>
          match readArrAt h mxId with
          | .error e => (.error e, h)
          | .ok mx =>
            match ndMaxAxis0 mx with
            | .error e => (.error e, h)
            | .ok mxr =>
              let h := (halloc h (.hArr mxr)).2
              match readArrAt h mnId with
              | .error e => (.error e, h)
              | .ok mn =>
                match ndMinAxis0 mn with
                | .error e => (.error e, h)
                | .ok mnr =>
                  let h := (halloc h (.hArr mnr)).2
                  let pv := pfn1 v (matMeanAxis1 M) two_sided true mxr mnr
                  let h := (halloc h (.hVec v pv)).2
                  (.ok (.hPair (.hVec v (matMeanAxis1 M)) (.hVec v pv)), h)
      else (.ok (.hVec v (matMeanAxis1 M)), h)
    else
      if return_p then
        match nulls with
        | none => (.error .nameError, h)
        | some (mxId, mnId) =>
          match readArrAt h mxId with
          | .error e => (.error e, h)
          | .ok mx =>
            match ndMaxAxis0 mx with
            | .error e => (.error e, h)
            | .ok mxr =>
              let h := (halloc h (.hArr mxr)).2
              match readArrAt h mnId with
              | .error e => (.error e, h)
              | .ok mn =>
                match ndMinAxis0 mn with
                | .error e => (.error e, h)
                | .ok mnr =>
                  let h := (halloc h (.hArr mnr)).2
                  let pv := pfn2 v s M two_sided true mxr mnr
                  let h := (halloc h (.hMat v s pv)).2
                  (.ok (.hPair (.hMat v s M) (.hMat v s pv)), h)
      else (.ok (.hMat v s M), h)

/-- The permutation loop of `isc` followed by its post-loop section (lines
98–126) in store form. -/
def iscHeapRun (pr : (n : Nat) → (Fin n → ℚ) → (Fin n → ℚ) → ℚ)
    (prf : {v' t' s' : Nat} → NTen v' t' s' → ℤ → NTen v' t' s')
    (pfn1 : (n : Nat) → NVec n → Bool → Bool → NDArr → NDArr → NVec n)
    (pfn2 : (r c : Nat) → NMat r c → Bool → Bool → NDArr → NDArr → NMat r c)
    (v t s iscId : Nat) (nulls : Option (Nat × Nat)) (rounds dv : Nat)
    (collapse_subj return_p two_sided : Bool) (rs : ℤ) (ft : Dtype) (h : Heap) :
    (Except PyErr HVal) × Heap :=
  match permLoopH (iscBodyH pr ft v t s iscId nulls) (prfStepH prf rs) 0 rounds dv h with
  | (.error e, h) => (.error e, h)
  | (.ok _, h) => iscHeapPost pfn1 pfn2 v s iscId nulls collapse_subj return_p two_sided h

/-- Store-level embedding of `isc` (lines 38–126): the caller passes the id
`dId` of its tensor object; the function allocates its own arrays, runs the
permutation loop, and returns the result object's value together with the
final store. -/
def iscHeap (pr : (n : Nat) → (Fin n → ℚ) → (Fin n → ℚ) → ℚ)
    (prf : {v' t' s' : Nat} → NTen v' t' s' → ℤ → NTen v' t' s')
    (pfn1 : (n : Nat) → NVec n → Bool → Bool → NDArr → NDArr → NVec n)
    (pfn2 : (r c : Nat) → NMat r c → Bool → Bool → NDArr → NDArr → NMat r c)
    (h0 : Heap) (dId : Nat) (collapse_subj return_p : Bool) (num_perm : ℤ)
    (two_sided : Bool) (random_state : ℤ) (float_type : Dtype) :
    (Except PyErr HVal) × Heap :=
  match h0.mem dId with
  | .hTen v t s _ =>
      -- lines 89–94: null-summary allocation under `return_p`
      let alloced : (Except PyErr (Option (Nat × Nat))) × Heap :=
        if return_p then
          match npEmptyPos2 s num_perm with
          | .error e => (.error e, h0)
          | .ok mx0 =>
            let mxId := (halloc h0 (.hArr (ndAstype mx0 float_type))).1
            let h1 := (halloc h0 (.hArr (ndAstype mx0 float_type))).2
            match npEmptyPos2 s num_perm with
            | .error e => (.error e, h1)
            | .ok mn0 =>
              let mnId := (halloc h1 (.hArr (ndAstype mn0 float_type))).1
              let h2 := (halloc h1 (.hArr (ndAstype mn0 float_type))).2
              (.ok (some (mxId, mnId)), h2)
        else (.ok none, h0)
      match alloced with
      | (.error e, h) => (.error e, h)
      | (.ok nulls, h) =>
        let n_perm : ℤ := if return_p then num_perm else 0
        -- line 96: allocate ISC
        let iscId := (halloc h (.hMat v s { dtype := float_type, val := fun _ _ => 0 })).1
        let h := (halloc h (.hMat v s { dtype := float_type, val := fun _ _ => 0 })).2
        -- lines 98–126
        iscHeapRun pr prf pfn1 pfn2 v t s iscId nulls (n_perm + 1).toNat dId
          collapse_subj return_p two_sided random_state float_type h
  | _ => (.error .typeError, h0)

/-- One left-out-subject step of `isfc`'s inner loop (lines 186–199) in store
form.  `compute_correlation`, `.astype` and the symmetrization each return a
new array the local name is rebound to, folded into one allocation of the
final `tmp_ISFC`; line 193 writes the `ISFC` slice in place; lines 196–199
write the null-summary entries in place. -/
def isfcLooStepH (cc : (a b n : Nat) → NMat a n → NMat b n → NMat a b) (ft : Dtype)
    {v t s : Nat} (isfcId : Nat) (nulls : Option (Nat × Nat)) (p : Nat)
    (D : NTen v t s) (loo : Fin s) (h : Heap) : (Except PyErr Unit) × Heap :=
  let tmp := tmp_ISFC cc ft D loo
  let (_, h) := halloc h (.hMat v v tmp)
  if p = 0 then
    match readTen3At h isfcId v v s with
    | .error e => (.error e, h)
    | .ok T =>
        (.ok (), hwrite h isfcId (.hTen v v s
          { dtype := T.dtype
          , val := fun i j k => if k = loo then castVal T.dtype (tmp.val i j) else T.val i j k }))
  else
    match nulls with
    | none => (.error .nameError, h)
    | some (mxId, mnId) =>
        match readArrAt h mxId with
        | .error e => (.error e, h)
        | .ok mx =>
          match matMaxAllE tmp with
          | .error e => (.error e, h)
          | .ok mxv =>
            match nd2Set mx loo (p - 1) mxv with
            | .error e => (.error e, h)
            | .ok mx' =>
              let h := hwrite h mxId (.hArr mx')
              match readArrAt h mnId with
              | .error e => (.error e, h)
              | .ok mn =>
                match matMinAllE tmp with
                | .error e => (.error e, h)
                | .ok mnv =>
                  match nd2Set mn loo (p - 1) mnv with
                  | .error e => (.error e, h)
                  | .ok mn' => (.ok (), hwrite h mnId (.hArr mn'))

/-- One permutation round of `isfc` (lines 184–199) in store form. -/
def isfcBodyH (cc : (a b n : Nat) → NMat a n → NMat b n → NMat a b) (ft : Dtype)
    (v t s : Nat) (isfcId : Nat) (nulls : Option (Nat × Nat))
    (p : Nat) (dv : Nat) (h : Heap) : (Except PyErr Unit) × Heap :=
  match readTenAt h dv v t s with
  | .error e => (.error e, h)
  | .ok D => foldH (fun loo h => isfcLooStepH cc ft isfcId nulls p D loo h) (List.finRange s) h

/-- Lines 204–214 of `isfc` in store form. -/
def isfcHeapPost (pfn2 : (r c : Nat) → NMat r c → Bool → Bool → NDArr → NDArr → NMat r c)
    (pfn3 : (a b c : Nat) → NTen a b c → Bool → Bool → NDArr → NDArr → NTen a b c)
    (v s : Nat) (isfcId : Nat) (nulls : Option (Nat × Nat))
    (collapse_subj return_p two_sided : Bool) (h : Heap) : (Except PyErr HVal) × Heap :=
  match readTen3At h isfcId v v s with
  | .error e => (.error e, h)
  | .ok T =>
    if collapse_subj then
      let h := (halloc h (.hMat v v (tenMeanAxis2 T))).2
      if return_p then
        match nulls with
        | none => (.error .nameError, h)
        | some (mxId, mnId) =>
          match readArrAt h mxId with
          | .error e => (.error e, h)
          | .ok mx =>
            match ndMaxAxis0 mx with
            | .error e => (.error e, h)
            | .ok mxr =>
              let h := (halloc h (.hArr mxr)).2
              match readArrAt h mnId with
              | .error e => (.error e, h)
              | .ok mn =>
                match ndMinAxis0 mn with
                | .error e => (.error e, h)
                | .ok mnr =>
                  let h := (halloc h (.hArr mnr)).2
                  let pv := pfn2 v v (tenMeanAxis2 T) two_sided true mxr mnr
                  let h := (halloc h (.hMat v v pv)).2
                  (.ok (.hPair (.hMat v v (tenMeanAxis2 T)) (.hMat v v pv)), h)
      else (.ok (.hMat v v (tenMeanAxis2 T)), h)
    else
      if return_p then
        match nulls with
        | none => (.error .nameError, h)
        | some (mxId, mnId) =>
          match readArrAt h mxId with
          | .error e => (.error e, h)
          | .ok mx =>
            match ndMaxAxis0 mx with
            | .error e => (.error e, h)
            | .ok mxr =>
              let h := (halloc h (.hArr mxr)).2
              match readArrAt h mnId with
              | .error e => (.error e, h)
              | .ok mn =>
                match ndMinAxis0 mn with
                | .error e => (.error e, h)
                | .ok mnr =>
                  let h := (halloc h (.hArr mnr)).2
                  let pv := pfn3 v v s T two_sided true mxr mnr
                  let h := (halloc h (.hTen v v s pv)).2
                  (.ok (.hPair (.hTen v v s T) (.hTen v v s pv)), h)
      else (.ok (.hTen v v s T), h)

/-- The permutation loop of `isfc` followed by its post-loop section (lines
183–214) in store form. -/
def isfcHeapRun (cc : (a b n : Nat) → NMat a n → NMat b n → NMat a b)
    (prf : {v' t' s' : Nat} → NTen v' t' s' → ℤ → NTen v' t' s')
    (pfn2 : (r c : Nat) → NMat r c → Bool → Bool → NDArr → NDArr → NMat r c)
    (pfn3 : (a b c : Nat) → NTen a b c → Bool → Bool → NDArr → NDArr → NTen a b c)
    (v t s isfcId : Nat) (nulls : Option (Nat × Nat)) (rounds dv : Nat)
    (collapse_subj return_p two_sided : Bool) (rs : ℤ) (ft : Dtype) (h : Heap) :
    (Except PyErr HVal) × Heap :=
  match permLoopH (isfcBodyH cc ft v t s isfcId nulls) (prfStepH prf rs) 0 rounds dv h with
  | (.error e, h) => (.error e, h)
  | (.ok _, h) => isfcHeapPost pfn2 pfn3 v s isfcId nulls collapse_subj return_p two_sided h

/-- Store-level embedding of `isfc` (lines 129–214). -/
def isfcHeap (cc : (a b n : Nat) → NMat a n → NMat b n → NMat a b)
    (prf : {v' t' s' : Nat} → NTen v' t' s' → ℤ → NTen v' t' s')
    (pfn2 : (r c : Nat) → NMat r c → Bool → Bool → NDArr → NDArr → NMat r c)
    (pfn3 : (a b c : Nat) → NTen a b c → Bool → Bool → NDArr → NDArr → NTen a b c)
    (h0 : Heap) (dId : Nat) (collapse_subj return_p : Bool) (num_perm : ℤ)
    (two_sided : Bool) (random_state : ℤ) (float_type : Dtype) :
    (Except PyErr HVal) × Heap :=
  match h0.mem dId with
  | .hTen v t s _ =>
      let alloced : (Except PyErr (Option (Nat × Nat))) × Heap :=
        if return_p then
          match npEmptyPos2 s num_perm with
          | .error e => (.error e, h0)
          | .ok mx0 =>
            let mxId := (halloc h0 (.hArr (ndAstype mx0 float_type))).1
            let h1 := (halloc h0 (.hArr (ndAstype mx0 float_type))).2
            match npEmptyPos2 s num_perm with
            | .error e => (.error e, h1)
            | .ok mn0 =>
              let mnId := (halloc h1 (.hArr (ndAstype mn0 float_type))).1
              let h2 := (halloc h1 (.hArr (ndAstype mn0 float_type))).2
              (.ok (some (mxId, mnId)), h2)
        else (.ok none, h0)
      match alloced with
      | (.error e, h) => (.error e, h)
      | (.ok nulls, h) =>
        let n_perm : ℤ := if return_p then num_perm else 0
        let isfcId := (halloc h (.hTen v v s { dtype := float_type, val := fun _ _ _ => 0 })).1
        let h := (halloc h (.hTen v v s { dtype := float_type, val := fun _ _ _ => 0 })).2
        -- lines 183–214
        isfcHeapRun cc prf pfn2 pfn3 v t s isfcId nulls (n_perm + 1).toNat dId
          collapse_subj return_p two_sided random_state float_type h
  | _ => (.error .typeError, h0)

/-! ### Concrete instances used by the closed theorems

The abstract externals are instantiated with simple representatives; the
evaluated control-flow facts (raising, completing, dtypes, frame) do not
depend on the numeric behavior of the collaborators. -/

/-- A representative scalar Pearson kernel (constant zero). -/
def prConst : (n : Nat) → (Fin n → ℚ) → (Fin n → ℚ) → ℚ := fun _ _ _ => 0

/-- A representative shape-preserving `phase_randomize` (identity). -/
def prfId : {v' t' s' : Nat} → NTen v' t' s' → ℤ → NTen v' t' s' := fun T _ => T

/-- A representative `p_from_null` on 1-D observed maps. -/
def pfnVec : (n : Nat) → NVec n → Bool → Bool → NDArr → NDArr → NVec n :=
  fun _ a _ _ _ _ => a

/-- A representative `p_from_null` on 2-D observed maps. -/
def pfnMat : (r c : Nat) → NMat r c → Bool → Bool → NDArr → NDArr → NMat r c :=
  fun _ _ a _ _ _ _ => a

/-- A representative `p_from_null` on 3-D observed maps. -/
def pfnTen : (a b c : Nat) → NTen a b c → Bool → Bool → NDArr → NDArr → NTen a b c :=
  fun _ _ _ a _ _ _ _ => a

/-- A representative all-pairs correlation kernel. -/
def ccConst : (a b n : Nat) → NMat a n → NMat b n → NMat a b :=
  fun _ _ _ _ _ => { dtype := .float64, val := fun _ _ => 0 }

/-- A concrete valid input: 2 voxels, 2 time points, 2 subjects, float64. -/
def Dex : NTen 2 2 2 :=
  { dtype := .float64, val := fun i τ k => (i : ℚ) + 2 * (τ : ℚ) + 4 * (k : ℚ) }

/-- A concrete invalid input per the spec's validity invariant: only one
subject (subject axis size < 2). -/
def Dex1 : NTen 1 2 1 := { dtype := .float64, val := fun _ _ _ => 1 }

/-- A concrete store holding `Dex` at id 0, with the allocation counter past
it. -/
def heapEx : Heap := { ctr := 1, mem := fun _ => .hTen 2 2 2 Dex }

/-! ### Derived forms used in the lemma statements -/

/-- The statistic array `isc` fills at round 0: column `j` holds `tmp_ISC`
for left-out subject `j` (stored through the destination-dtype cast). -/
def iscStatMat (pr : (n : Nat) → (Fin n → ℚ) → (Fin n → ℚ) → ℚ) (ft : Dtype)
    {v t s : Nat} (D : NTen v t s) : NMat v s :=
  { dtype := ft, val := fun i j => castVal ft ((tmp_ISC pr ft D j).val i) }

/-- The statistic array `isfc` fills at round 0: slice `k` holds the
symmetrized `tmp_ISFC` for left-out subject `k`. -/
def isfcStatTen (cc : (a b n : Nat) → NMat a n → NMat b n → NMat a b) (ft : Dtype)
    {v t s : Nat} (D : NTen v t s) : NTen v v s :=
  { dtype := ft, val := fun i j k => castVal ft ((tmp_ISFC cc ft D k).val i j) }

/-- Store evolution that leaves the object at `dId` untouched: the allocation
counter never shrinks and the contents at `dId` are unchanged. -/
def HeapExt (h h' : Heap) (dId : Nat) : Prop :=
  h.ctr ≤ h'.ctr ∧ h'.mem dId = h.mem dId

/-- Overwrite of one matrix column, as `ISC[:, loo] = tmp` performs (with the
destination-dtype cast of the stored values). -/
def colUpd {v s : Nat} (f : Fin s → Fin v → ℚ) (M : NMat v s) (loo : Fin s) : NMat v s :=
  { M with val := fun i j => if j = loo then castVal M.dtype (f loo i) else M.val i j }

/-- Overwrite of one subject slice, as `ISFC[:, :, loo] = tmp` performs. -/
def sliceUpd {v s : Nat} (f : Fin s → Fin v → Fin v → ℚ) (T : NTen v v s) (loo : Fin s) :
    NTen v v s :=
  { T with val := fun i j k => if k = loo then castVal T.dtype (f loo i j) else T.val i j k }

/-- The id `d` is distinct from both null-summary object ids (trivially so
when the null summaries were not allocated). -/
def NullsOther : Option (Nat × Nat) → Nat → Prop
  | none, _ => True
  | some (a, b), d => d ≠ a ∧ d ≠ b

/-! ### Helper lemmas: the pure permutation round at `p = 0` -/

/-- A monadic fold whose step never raises is the plain fold. -/
theorem foldlM_pure {α β : Type} (g : β → α → β) (l : List α) (b : β) :
    l.foldlM (m := Except PyErr) (fun st a => pure (g st a)) b = .ok (l.foldl g b) := by
  induction l generalizing b with
  | nil => rfl
  | cons a l ih => simpa [List.foldlM_cons, List.foldl_cons] using ih (g b a)

/-- Folding per-column overwrites of a matrix: afterwards every column in the
list holds its new value, the others are unchanged, and the dtype is kept. -/
theorem foldl_colUpd {v s : Nat} (f : Fin s → Fin v → ℚ) (L : List (Fin s)) (M : NMat v s) :
    L.foldl (colUpd f) M
      = { M with val := fun i j => if j ∈ L then castVal M.dtype (f j i) else M.val i j } := by
  induction L generalizing M with
  | nil => simp
  | cons a L ih =>
      rw [List.foldl_cons, ih]
      simp only [colUpd]
      congr 1
      funext i j
      by_cases hL : j ∈ L <;> by_cases ha : j = a <;> simp [hL, ha]

/-- Folding per-slice overwrites of a 3-D array, as `isfc` does. -/
theorem foldl_sliceUpd {v s : Nat} (f : Fin s → Fin v → Fin v → ℚ) (L : List (Fin s))
    (T : NTen v v s) :
    L.foldl (sliceUpd f) T
      = { T with val := fun i j k => if k ∈ L then castVal T.dtype (f k i j) else T.val i j k } := by
  induction L generalizing T with
  | nil => simp
  | cons a L ih =>
      rw [List.foldl_cons, ih]
      simp only [sliceUpd]
      congr 1
      funext i j k
      by_cases hL : k ∈ L <;> by_cases ha : k = a <;> simp [hL, ha]

/-- A fold that only rewrites the first component of a pair. -/
theorem foldl_pair {α β γ : Type} (u : β → α → β) (L : List α) (b : β) (o : γ) :
    L.foldl (fun (p : β × γ) a => (u p.1 a, p.2)) (b, o) = (L.foldl u b, o) := by
  induction L generalizing b with
  | nil => rfl
  | cons a L ih => simpa [List.foldl_cons] using ih (u b a)

/-- Round 0 of `isc`'s loop never raises: it fills every `ISC` column with
the corresponding `tmp_ISC` and leaves the null summaries alone. -/
theorem iscBody_zero (pr : (n : Nat) → (Fin n → ℚ) → (Fin n → ℚ) → ℚ) (ft : Dtype)
    {v t s : Nat} (D : NTen v t s) (st : IscSt v s) :
    iscBody pr ft 0 D st =
      .ok ⟨{ dtype := st.1.dtype
           , val := fun i j => castVal st.1.dtype ((tmp_ISC pr ft D j).val i) }, st.2⟩ := by
  obtain ⟨M, o⟩ := st
  have h : iscBody pr ft 0 D (M, o) =
      (List.finRange s).foldlM (m := Except PyErr)
        (fun (st : IscSt v s) loo =>
          pure (colUpd (fun loo i => (tmp_ISC pr ft D loo).val i) st.1 loo, st.2)) (M, o) := rfl
  rw [h, foldlM_pure, foldl_pair (colUpd (fun loo i => (tmp_ISC pr ft D loo).val i)),
    foldl_colUpd (fun loo i => (tmp_ISC pr ft D loo).val i)]
  simp [List.mem_finRange]

/-- Round 0 of `isfc`'s loop never raises: it fills every `ISFC` slice with
the corresponding symmetrized `tmp_ISFC`. -/
theorem isfcBody_zero (cc : (a b n : Nat) → NMat a n → NMat b n → NMat a b) (ft : Dtype)
    {v t s : Nat} (D : NTen v t s) (st : IsfcSt v s) :
    isfcBody cc ft 0 D st =
      .ok ⟨{ dtype := st.1.dtype
           , val := fun i j k => castVal st.1.dtype ((tmp_ISFC cc ft D k).val i j) }, st.2⟩ := by
  obtain ⟨T, o⟩ := st
  have h : isfcBody cc ft 0 D (T, o) =
      (List.finRange s).foldlM (m := Except PyErr)
        (fun (st : IsfcSt v s) loo =>
          pure (sliceUpd (fun loo i j => (tmp_ISFC cc ft D loo).val i j) st.1 loo, st.2)) (T, o) := rfl
  rw [h, foldlM_pure, foldl_pair (sliceUpd (fun loo i j => (tmp_ISFC cc ft D loo).val i j)),
    foldl_sliceUpd (fun loo i j => (tmp_ISFC cc ft D loo).val i j)]
  simp [List.mem_finRange]

/-- With one iteration the permutation loop is just round 0's body (the
trailing `phase_randomize` rebinding is dropped with the loop variable). -/
theorem permLoop_one {v t s : Nat} {σ : Type}
    (body : Nat → NTen v t s → σ → Except PyErr σ)
    (prf : {v' t' s' : Nat} → NTen v' t' s' → ℤ → NTen v' t' s') (rs : ℤ)
    (D : NTen v t s) (acc : σ) :
    permLoop body prf rs 0 1 D acc = body 0 D acc := by
  show (body 0 D acc).bind _ = _
  cases body 0 D acc <;> rfl

/-- `isc` without permutation testing, uncollapsed: it returns the leave-one-
out statistic matrix. -/
theorem isc_noP_stat2 (pr : (n : Nat) → (Fin n → ℚ) → (Fin n → ℚ) → ℚ)
    (prf : {v' t' s' : Nat} → NTen v' t' s' → ℤ → NTen v' t' s')
    (pfn1 : (n : Nat) → NVec n → Bool → Bool → NDArr → NDArr → NVec n)
    (pfn2 : (r c : Nat) → NMat r c → Bool → Bool → NDArr → NDArr → NMat r c)
    {v t s : Nat} (D : NTen v t s) (np : ℤ) (ts : Bool) (rs : ℤ) (ft : Dtype) :
    isc pr prf pfn1 pfn2 D false false np ts rs ft = .ok (.stat2 (iscStatMat pr ft D)) := by
  show (permLoop (iscBody pr ft) prf rs 0 1 D _).bind _ = _
  rw [permLoop_one, iscBody_zero]
  rfl

/-- `isc` without permutation testing, collapsed: it returns the subject-axis
mean of the leave-one-out statistic matrix. -/
theorem isc_noP_stat1 (pr : (n : Nat) → (Fin n → ℚ) → (Fin n → ℚ) → ℚ)
    (prf : {v' t' s' : Nat} → NTen v' t' s' → ℤ → NTen v' t' s')
    (pfn1 : (n : Nat) → NVec n → Bool → Bool → NDArr → NDArr → NVec n)
    (pfn2 : (r c : Nat) → NMat r c → Bool → Bool → NDArr → NDArr → NMat r c)
    {v t s : Nat} (D : NTen v t s) (np : ℤ) (ts : Bool) (rs : ℤ) (ft : Dtype) :
    isc pr prf pfn1 pfn2 D true false np ts rs ft
      = .ok (.stat1 (matMeanAxis1 (iscStatMat pr ft D))) := by
  show (permLoop (iscBody pr ft) prf rs 0 1 D _).bind _ = _
  rw [permLoop_one, iscBody_zero]
  rfl

/-- `isfc` without permutation testing, uncollapsed. -/
theorem isfc_noP_stat3 (cc : (a b n : Nat) → NMat a n → NMat b n → NMat a b)
    (prf : {v' t' s' : Nat} → NTen v' t' s' → ℤ → NTen v' t' s')
    (pfn2 : (r c : Nat) → NMat r c → Bool → Bool → NDArr → NDArr → NMat r c)
    (pfn3 : (a b c : Nat) → NTen a b c → Bool → Bool → NDArr → NDArr → NTen a b c)
    {v t s : Nat} (D : NTen v t s) (np : ℤ) (ts : Bool) (rs : ℤ) (ft : Dtype) :
    isfc cc prf pfn2 pfn3 D false false np ts rs ft = .ok (.stat3 (isfcStatTen cc ft D)) := by
  show (permLoop (isfcBody cc ft) prf rs 0 1 D _).bind _ = _
  rw [permLoop_one, isfcBody_zero]
  rfl

/-- `isfc` without permutation testing, collapsed. -/
theorem isfc_noP_stat2 (cc : (a b n : Nat) → NMat a n → NMat b n → NMat a b)
    (prf : {v' t' s' : Nat} → NTen v' t' s' → ℤ → NTen v' t' s')
    (pfn2 : (r c : Nat) → NMat r c → Bool → Bool → NDArr → NDArr → NMat r c)
    (pfn3 : (a b c : Nat) → NTen a b c → Bool → Bool → NDArr → NDArr → NTen a b c)
    {v t s : Nat} (D : NTen v t s) (np : ℤ) (ts : Bool) (rs : ℤ) (ft : Dtype) :
    isfc cc prf pfn2 pfn3 D true false np ts rs ft
      = .ok (.stat2 (tenMeanAxis2 (isfcStatTen cc ft D))) := by
  show (permLoop (isfcBody cc ft) prf rs 0 1 D _).bind _ = _
  rw [permLoop_one, isfcBody_zero]
  rfl

/-- The source's permutation loop is exactly the spec's indexed fold: the
round at offset `k` from the start consumes the `k`-fold randomized tensor. -/
theorem permLoop_eq_fold {v t s : Nat} {σ : Type}
    (body : Nat → NTen v t s → σ → Except PyErr σ)
    (prf : {v' t' s' : Nat} → NTen v' t' s' → ℤ → NTen v' t' s') (rs : ℤ) :
    ∀ (r p : Nat) (D : NTen v t s) (acc : σ),
      permLoop body prf rs p r D acc
        = (List.range r).foldlM (fun acc k => body (p + k) (roundTensor prf rs D k) acc) acc := by
  intro r
  induction r with
  | zero => intro p D acc; rfl
  | succ r ih =>
      intro p D acc
      have hsucc : ∀ k, roundTensor prf rs D (Nat.succ k) = roundTensor prf rs (prf D rs) k := by
        intro k
        simp [roundTensor, Function.iterate_succ_apply]
      have key : (List.range (r + 1)).foldlM
            (fun acc k => body (p + k) (roundTensor prf rs D k) acc) acc
          = (body p D acc) >>= (fun b =>
              (List.range r).foldlM
                (fun acc k => body (p + 1 + k) (roundTensor prf rs (prf D rs) k) acc) b) := by
        rw [List.range_succ_eq_map, List.foldlM_cons]
        simp only [List.foldlM_map, Nat.add_zero]
        have h0 : roundTensor prf rs D 0 = D := rfl
        rw [h0]
        congr 1
        funext b
        congr 1
        funext acc k
        rw [hsucc k]
        have harith : p + Nat.succ k = p + 1 + k := by omega
        rw [harith]
      rw [key]
      show (body p D acc) >>= _ = _
      congr 1
      funext b
      exact ih (p + 1) (prf D rs) b

/-! ### Helper lemmas: store evolution of the heap-based embedding -/

/-- `HeapExt` is reflexive. -/
theorem heapExt_refl (h : Heap) (dId : Nat) : HeapExt h h dId := ⟨le_refl _, rfl⟩

/-- `HeapExt` composes. -/
theorem heapExt_trans {h1 h2 h3 : Heap} {dId : Nat}
    (a : HeapExt h1 h2 dId) (b : HeapExt h2 h3 dId) : HeapExt h1 h3 dId :=
  ⟨le_trans a.1 b.1, b.2.trans a.2⟩

/-- An allocation never touches an id below the counter. -/
theorem halloc_ext (h : Heap) (o : HVal) {dId : Nat} (hlt : dId < h.ctr) :
    HeapExt h (halloc h o).2 dId := by
  refine ⟨Nat.le_succ _, ?_⟩
  show (if dId = h.ctr then o else h.mem dId) = h.mem dId
  rw [if_neg (Nat.ne_of_lt hlt)]

/-- A write to a different id leaves `dId` untouched. -/
theorem hwrite_ext (h : Heap) (i : Nat) (o : HVal) {dId : Nat} (hne : dId ≠ i) :
    HeapExt h (hwrite h i o) dId := by
  refine ⟨le_refl _, ?_⟩
  show (if dId = i then o else h.mem dId) = h.mem dId
  rw [if_neg hne]

/-- `HeapExt` keeps `dId` strictly below the counter. -/
theorem heapExt_lt {h h' : Heap} {dId : Nat} (e : HeapExt h h' dId) (hlt : dId < h.ctr) :
    dId < h'.ctr := lt_of_lt_of_le hlt e.1

/-- A fold of steps that each preserve `dId` preserves `dId`. -/
theorem foldH_ext {α : Type} (f : α → Heap → (Except PyErr Unit) × Heap) {dId : Nat}
    (hf : ∀ a h, dId < h.ctr → HeapExt h (f a h).2 dId) :
    ∀ (L : List α) (h : Heap), dId < h.ctr → HeapExt h (foldH f L h).2 dId := by
  intro L
  induction L with
  | nil => intro h hlt; exact heapExt_refl h dId
  | cons a L ih =>
      intro h hlt
      have e1 := hf a h hlt
      unfold foldH
      rcases hres : f a h with ⟨res, h'⟩
      rw [hres] at e1
      cases res with
      | error e => exact e1
      | ok u => exact heapExt_trans e1 (ih h' (heapExt_lt e1 hlt))

/-- The `phase_randomize` rebinding step only allocates. -/
theorem prfStepH_ext (prf : {v' t' s' : Nat} → NTen v' t' s' → ℤ → NTen v' t' s')
    (rs : ℤ) (dv : Nat) (h : Heap) {dId : Nat} (hlt : dId < h.ctr) :
    HeapExt h (prfStepH prf rs dv h).2 dId := by
  unfold prfStepH
  cases h.mem dv with
  | hTen v t s T => exact halloc_ext h _ hlt
  | hMat r c M => exact heapExt_refl h dId
  | hVec n x => exact heapExt_refl h dId
  | hArr a => exact heapExt_refl h dId
  | hPair a b => exact heapExt_refl h dId
  | hNone => exact heapExt_refl h dId

/-- A permutation loop whose rounds and rebinding step preserve `dId`
preserves `dId`. -/
theorem permLoopH_ext (body : Nat → Nat → Heap → (Except PyErr Unit) × Heap)
    (prfStep : Nat → Heap → (Except PyErr Nat) × Heap) {dId : Nat}
    (hbody : ∀ p dv h, dId < h.ctr → HeapExt h (body p dv h).2 dId)
    (hstep : ∀ dv h, dId < h.ctr → HeapExt h (prfStep dv h).2 dId) :
    ∀ (r p dv : Nat) (h : Heap), dId < h.ctr → HeapExt h (permLoopH body prfStep p r dv h).2 dId := by
  intro r
  induction r with
  | zero => intro p dv h hlt; exact heapExt_refl h dId
  | succ r ih =>
      intro p dv h hlt
      have e1 := hbody p dv h hlt
      unfold permLoopH
      split
      next e h' heq =>
          rw [heq] at e1
          exact e1
      next u h' heq =>
          rw [heq] at e1
          have hlt' := heapExt_lt e1 hlt
          have e2 := hstep dv h' hlt'
          split
          next e h'' heq2 =>
              rw [heq2] at e2
              exact heapExt_trans e1 e2
          next dv' h'' heq2 =>
              rw [heq2] at e2
              exact heapExt_trans e1 (heapExt_trans e2 (ih (p + 1) dv' h'' (heapExt_lt e2 hlt')))

/-- Allocating a temporary and filling it never touches an id below the
original counter. -/
theorem tmpWrite_ext (h : Heap) (o1 o2 : HVal) {dId : Nat} (hlt : dId < h.ctr) :
    HeapExt h (hwrite (halloc h o1).2 (halloc h o1).1 o2) dId :=
  heapExt_trans (halloc_ext h o1 hlt) (hwrite_ext _ _ _ (Nat.ne_of_lt hlt))

/-- One left-out-subject step of `isc` writes only the freshly allocated
temporary, the `ISC` object and the null-summary objects. -/
theorem iscLooStepH_ext (pr : (n : Nat) → (Fin n → ℚ) → (Fin n → ℚ) → ℚ) (ft : Dtype)
    {v t s : Nat} (iscId : Nat) (nulls : Option (Nat × Nat)) (p : Nat)
    (D : NTen v t s) (loo : Fin s) (h : Heap) {dId : Nat}
    (hlt : dId < h.ctr) (hisc : dId ≠ iscId) (hnul : NullsOther nulls dId) :
    HeapExt h (iscLooStepH pr ft iscId nulls p D loo h).2 dId := by
  unfold iscLooStepH
  by_cases hp : p = 0 <;> simp only [hp, if_true, if_false, reduceIte]
  · repeat' split
    all_goals first
      | exact tmpWrite_ext h _ _ hlt
      | exact heapExt_trans (tmpWrite_ext h _ _ hlt) (hwrite_ext _ _ _ hisc)
  · cases nulls with
    | none => exact tmpWrite_ext h _ _ hlt
    | some pair =>
        obtain ⟨mxId, mnId⟩ := pair
        have hmx : dId ≠ mxId := hnul.1
        have hmn : dId ≠ mnId := hnul.2
        split
        next heq => exact tmpWrite_ext h _ _ hlt
        next mx2 mn2 heq =>
          obtain ⟨h1, h2⟩ : mxId = mx2 ∧ mnId = mn2 := by
            injection heq with h3
            injection h3 with h4 h5
            exact ⟨h4, h5⟩
          subst h1
          subst h2
          repeat' split
          all_goals first
            | exact tmpWrite_ext h _ _ hlt
            | exact heapExt_trans (tmpWrite_ext h _ _ hlt) (hwrite_ext _ _ _ hmx)
            | exact heapExt_trans (heapExt_trans (tmpWrite_ext h _ _ hlt)
                (hwrite_ext _ _ _ hmx)) (hwrite_ext _ _ _ hmn)

/-- One left-out-subject step of `isfc` writes only the freshly allocated
temporary, the `ISFC` object and the null-summary objects. -/
theorem isfcLooStepH_ext (cc : (a b n : Nat) → NMat a n → NMat b n → NMat a b) (ft : Dtype)
    {v t s : Nat} (isfcId : Nat) (nulls : Option (Nat × Nat)) (p : Nat)
    (D : NTen v t s) (loo : Fin s) (h : Heap) {dId : Nat}
    (hlt : dId < h.ctr) (hfc : dId ≠ isfcId) (hnul : NullsOther nulls dId) :
    HeapExt h (isfcLooStepH cc ft isfcId nulls p D loo h).2 dId := by
  unfold isfcLooStepH
  by_cases hp : p = 0 <;> simp only [hp, if_true, if_false, reduceIte]
  · repeat' split
    all_goals first
      | exact halloc_ext h _ hlt
      | exact heapExt_trans (halloc_ext h _ hlt) (hwrite_ext _ _ _ hfc)
  · cases nulls with
    | none => exact halloc_ext h _ hlt
    | some pair =>
        obtain ⟨mxId, mnId⟩ := pair
        have hmx : dId ≠ mxId := hnul.1
        have hmn : dId ≠ mnId := hnul.2
        split
        next heq => exact halloc_ext h _ hlt
        next mx2 mn2 heq =>
          obtain ⟨h1, h2⟩ : mxId = mx2 ∧ mnId = mn2 := by
            injection heq with h3
            injection h3 with h4 h5
            exact ⟨h4, h5⟩
          subst h1
          subst h2
          repeat' split
          all_goals first
            | exact halloc_ext h _ hlt
            | exact heapExt_trans (halloc_ext h _ hlt) (hwrite_ext _ _ _ hmx)
            | exact heapExt_trans (heapExt_trans (halloc_ext h _ hlt)
                (hwrite_ext _ _ _ hmx)) (hwrite_ext _ _ _ hmn)

/-- One permutation round of `isc` preserves any id other than the engine's
own objects. -/
theorem iscBodyH_ext (pr : (n : Nat) → (Fin n → ℚ) → (Fin n → ℚ) → ℚ) (ft : Dtype)
    (v t s : Nat) (iscId : Nat) (nulls : Option (Nat × Nat)) {dId : Nat}
    (hisc : dId ≠ iscId) (hnul : NullsOther nulls dId) :
    ∀ (p dv : Nat) (h : Heap), dId < h.ctr →
      HeapExt h (iscBodyH pr ft v t s iscId nulls p dv h).2 dId := by
  intro p dv h hlt
  unfold iscBodyH
  split
  next e heq => exact heapExt_refl h dId
  next D heq =>
      exact foldH_ext _ (fun loo h2 hlt2 => iscLooStepH_ext pr ft iscId nulls p D loo h2 hlt2 hisc hnul)
        (List.finRange s) h hlt

/-- One permutation round of `isfc` preserves any id other than the engine's
own objects. -/
theorem isfcBodyH_ext (cc : (a b n : Nat) → NMat a n → NMat b n → NMat a b) (ft : Dtype)
    (v t s : Nat) (isfcId : Nat) (nulls : Option (Nat × Nat)) {dId : Nat}
    (hfc : dId ≠ isfcId) (hnul : NullsOther nulls dId) :
    ∀ (p dv : Nat) (h : Heap), dId < h.ctr →
      HeapExt h (isfcBodyH cc ft v t s isfcId nulls p dv h).2 dId := by
  intro p dv h hlt
  unfold isfcBodyH
  split
  next e heq => exact heapExt_refl h dId
  next D heq =>
      exact foldH_ext _ (fun loo h2 hlt2 => isfcLooStepH_ext cc ft isfcId nulls p D loo h2 hlt2 hfc hnul)
        (List.finRange s) h hlt

/-- Extending a chain with one more allocation. -/
theorem halloc_ext2 {h h' : Heap} {dId : Nat} (e : HeapExt h h' dId) (o : HVal)
    (hlt : dId < h.ctr) : HeapExt h (halloc h' o).2 dId :=
  heapExt_trans e (halloc_ext h' o (heapExt_lt e hlt))

/-- The post-loop section of `isc` reads and allocates only. -/
theorem iscHeapPost_ext (pfn1 : (n : Nat) → NVec n → Bool → Bool → NDArr → NDArr → NVec n)
    (pfn2 : (r c : Nat) → NMat r c → Bool → Bool → NDArr → NDArr → NMat r c)
    (v s : Nat) (iscId : Nat) (nulls : Option (Nat × Nat)) (cs rp ts : Bool)
    (h : Heap) {dId : Nat} (hlt : dId < h.ctr) :
    HeapExt h (iscHeapPost pfn1 pfn2 v s iscId nulls cs rp ts h).2 dId := by
  unfold iscHeapPost
  repeat' (first | split | (simp only [] ; split))
  all_goals simp only []
  all_goals first
    | exact heapExt_refl h dId
    | exact halloc_ext h _ hlt
    | exact halloc_ext2 (halloc_ext h _ hlt) _ hlt
    | exact halloc_ext2 (halloc_ext2 (halloc_ext h _ hlt) _ hlt) _ hlt
    | exact halloc_ext2 (halloc_ext2 (halloc_ext2 (halloc_ext h _ hlt) _ hlt) _ hlt) _ hlt

/-- The post-loop section of `isfc` reads and allocates only. -/
theorem isfcHeapPost_ext (pfn2 : (r c : Nat) → NMat r c → Bool → Bool → NDArr → NDArr → NMat r c)
    (pfn3 : (a b c : Nat) → NTen a b c → Bool → Bool → NDArr → NDArr → NTen a b c)
    (v s : Nat) (isfcId : Nat) (nulls : Option (Nat × Nat)) (cs rp ts : Bool)
    (h : Heap) {dId : Nat} (hlt : dId < h.ctr) :
    HeapExt h (isfcHeapPost pfn2 pfn3 v s isfcId nulls cs rp ts h).2 dId := by
  unfold isfcHeapPost
  repeat' (first | split | (simp only [] ; split))
  all_goals simp only []
  all_goals first
    | exact heapExt_refl h dId
    | exact halloc_ext h _ hlt
    | exact halloc_ext2 (halloc_ext h _ hlt) _ hlt
    | exact halloc_ext2 (halloc_ext2 (halloc_ext h _ hlt) _ hlt) _ hlt
    | exact halloc_ext2 (halloc_ext2 (halloc_ext2 (halloc_ext h _ hlt) _ hlt) _ hlt) _ hlt

/-- The loop-plus-post section of `isc` preserves ids other than the engine's
objects. -/
theorem iscHeapRun_ext (pr : (n : Nat) → (Fin n → ℚ) → (Fin n → ℚ) → ℚ)
    (prf : {v' t' s' : Nat} → NTen v' t' s' → ℤ → NTen v' t' s')
    (pfn1 : (n : Nat) → NVec n → Bool → Bool → NDArr → NDArr → NVec n)
    (pfn2 : (r c : Nat) → NMat r c → Bool → Bool → NDArr → NDArr → NMat r c)
    (v t s iscId : Nat) (nulls : Option (Nat × Nat)) (rounds dv : Nat)
    (cs rp ts : Bool) (rs : ℤ) (ft : Dtype) (h : Heap) {dId : Nat}
    (hlt : dId < h.ctr) (hisc : dId ≠ iscId) (hnul : NullsOther nulls dId) :
    HeapExt h (iscHeapRun pr prf pfn1 pfn2 v t s iscId nulls rounds dv cs rp ts rs ft h).2 dId := by
  have hloop := permLoopH_ext (iscBodyH pr ft v t s iscId nulls) (prfStepH prf rs)
    (iscBodyH_ext pr ft v t s iscId nulls hisc hnul)
    (fun dv2 h2 hlt2 => prfStepH_ext prf rs dv2 h2 hlt2) rounds 0 dv h hlt
  unfold iscHeapRun
  split
  next e h2 heq =>
      rw [heq] at hloop
      exact hloop
  next u h2 heq =>
      rw [heq] at hloop
      exact heapExt_trans hloop
        (iscHeapPost_ext pfn1 pfn2 v s iscId nulls cs rp ts h2 (heapExt_lt hloop hlt))

/-- The loop-plus-post section of `isfc` preserves ids other than the
engine's objects. -/
theorem isfcHeapRun_ext (cc : (a b n : Nat) → NMat a n → NMat b n → NMat a b)
    (prf : {v' t' s' : Nat} → NTen v' t' s' → ℤ → NTen v' t' s')
    (pfn2 : (r c : Nat) → NMat r c → Bool → Bool → NDArr → NDArr → NMat r c)
    (pfn3 : (a b c : Nat) → NTen a b c → Bool → Bool → NDArr → NDArr → NTen a b c)
    (v t s isfcId : Nat) (nulls : Option (Nat × Nat)) (rounds dv : Nat)
    (cs rp ts : Bool) (rs : ℤ) (ft : Dtype) (h : Heap) {dId : Nat}
    (hlt : dId < h.ctr) (hfc : dId ≠ isfcId) (hnul : NullsOther nulls dId) :
    HeapExt h (isfcHeapRun cc prf pfn2 pfn3 v t s isfcId nulls rounds dv cs rp ts rs ft h).2 dId := by
  have hloop := permLoopH_ext (isfcBodyH cc ft v t s isfcId nulls) (prfStepH prf rs)
    (isfcBodyH_ext cc ft v t s isfcId nulls hfc hnul)
    (fun dv2 h2 hlt2 => prfStepH_ext prf rs dv2 h2 hlt2) rounds 0 dv h hlt
  unfold isfcHeapRun
  split
  next e h2 heq =>
      rw [heq] at hloop
      exact hloop
  next u h2 heq =>
      rw [heq] at hloop
      exact heapExt_trans hloop
        (isfcHeapPost_ext pfn2 pfn3 v s isfcId nulls cs rp ts h2 (heapExt_lt hloop hlt))

/-- The store-level `isc` never changes the object at any id allocated
before the call — in particular the caller's input tensor. -/
theorem iscHeap_ext (pr : (n : Nat) → (Fin n → ℚ) → (Fin n → ℚ) → ℚ)
    (prf : {v' t' s' : Nat} → NTen v' t' s' → ℤ → NTen v' t' s')
    (pfn1 : (n : Nat) → NVec n → Bool → Bool → NDArr → NDArr → NVec n)
    (pfn2 : (r c : Nat) → NMat r c → Bool → Bool → NDArr → NDArr → NMat r c)
    (h0 : Heap) (dId : Nat) (cs rp : Bool) (np : ℤ) (ts : Bool) (rs : ℤ) (ft : Dtype)
    (hlt : dId < h0.ctr) :
    HeapExt h0 (iscHeap pr prf pfn1 pfn2 h0 dId cs rp np ts rs ft).2 dId := by
  unfold iscHeap
  split
  next v t s T hmem =>
    cases rp with
    | false =>
        exact heapExt_trans (halloc_ext h0 _ hlt)
          (iscHeapRun_ext pr prf pfn1 pfn2 v t s _ none _ dId cs false ts rs ft _
            (heapExt_lt (halloc_ext h0 _ hlt) hlt) (Nat.ne_of_lt hlt) trivial)
    | true =>
        rcases hnp : npEmptyPos2 s np with e | mx0
        · exact heapExt_refl h0 dId
        · have e2 : HeapExt h0 (halloc (halloc h0 (.hArr (ndAstype mx0 ft))).2
              (.hArr (ndAstype mx0 ft))).2 dId :=
            halloc_ext2 (halloc_ext h0 _ hlt) _ hlt
          have e3 : HeapExt h0 (halloc (halloc (halloc h0 (.hArr (ndAstype mx0 ft))).2
              (.hArr (ndAstype mx0 ft))).2
              (.hMat v s { dtype := ft, val := fun _ _ => 0 })).2 dId :=
            halloc_ext2 e2 _ hlt
          have hisc : dId ≠ h0.ctr + 2 := by omega
          have hnul : dId ≠ h0.ctr ∧ dId ≠ h0.ctr + 1 :=
            ⟨Nat.ne_of_lt hlt, by omega⟩
          exact heapExt_trans e3
            (iscHeapRun_ext pr prf pfn1 pfn2 v t s _ _ _ dId cs true ts rs ft _
              (heapExt_lt e3 hlt) hisc hnul)
  next hmem => exact heapExt_refl h0 dId

/-- The store-level `isfc` never changes the object at any id allocated
before the call. -/
theorem isfcHeap_ext (cc : (a b n : Nat) → NMat a n → NMat b n → NMat a b)
    (prf : {v' t' s' : Nat} → NTen v' t' s' → ℤ → NTen v' t' s')
    (pfn2 : (r c : Nat) → NMat r c → Bool → Bool → NDArr → NDArr → NMat r c)
    (pfn3 : (a b c : Nat) → NTen a b c → Bool → Bool → NDArr → NDArr → NTen a b c)
    (h0 : Heap) (dId : Nat) (cs rp : Bool) (np : ℤ) (ts : Bool) (rs : ℤ) (ft : Dtype)
    (hlt : dId < h0.ctr) :
    HeapExt h0 (isfcHeap cc prf pfn2 pfn3 h0 dId cs rp np ts rs ft).2 dId := by
  unfold isfcHeap
  split
  next v t s T hmem =>
    cases rp with
    | false =>
        exact heapExt_trans (halloc_ext h0 _ hlt)
          (isfcHeapRun_ext cc prf pfn2 pfn3 v t s _ none _ dId cs false ts rs ft _
            (heapExt_lt (halloc_ext h0 _ hlt) hlt) (Nat.ne_of_lt hlt) trivial)
    | true =>
        rcases hnp : npEmptyPos2 s np with e | mx0
        · exact heapExt_refl h0 dId
        · have e2 : HeapExt h0 (halloc (halloc h0 (.hArr (ndAstype mx0 ft))).2
              (.hArr (ndAstype mx0 ft))).2 dId :=
            halloc_ext2 (halloc_ext h0 _ hlt) _ hlt
          have e3 : HeapExt h0 (halloc (halloc (halloc h0 (.hArr (ndAstype mx0 ft))).2
              (.hArr (ndAstype mx0 ft))).2
              (.hTen v v s { dtype := ft, val := fun _ _ _ => 0 })).2 dId :=
            halloc_ext2 e2 _ hlt
          have hfc : dId ≠ h0.ctr + 2 := by omega
          have hnul : dId ≠ h0.ctr ∧ dId ≠ h0.ctr + 1 :=
            ⟨Nat.ne_of_lt hlt, by omega⟩
          exact heapExt_trans e3
            (isfcHeapRun_ext cc prf pfn2 pfn3 v t s _ _ _ dId cs true ts rs ft _
              (heapExt_lt e3 hlt) hfc hnul)
  next hmem => exact heapExt_refl h0 dId

/-- The symmetrization `(M + Mᵗ) / 2` of line 190 makes `tmp_ISFC` symmetric
whatever the correlation kernel returned. -/
theorem tmp_ISFC_symm (cc : (a b n : Nat) → NMat a n → NMat b n → NMat a b) (ft : Dtype)
    {v t s : Nat} (D : NTen v t s) (loo : Fin s) (i j : Fin v) :
    (tmp_ISFC cc ft D loo).val i j = (tmp_ISFC cc ft D loo).val j i := by
  show (_ + _) / 2 = (_ + _) / 2
  rw [add_comm]

/-! ### The claims -/

/-- C1: the claim says that with `return_p=True` both `isc` and `isfc`
allocate `max_null`/`min_null` shaped `[subject, num_perm]`, populate them
per permutation and reduce them across subjects.  The code instead calls
`np.empty(n_subj, num_perm)` (lines 91–92 and 176–177), which passes
`num_perm` in the dtype slot of `np.empty`; with the default
`num_perm=1000` NumPy raises `TypeError` ("Cannot interpret '1000' as a
data type") before the permutation loop, so the claimed arrays are never
created.  This theorem evaluates the embedded functions at the failing
input. -/
theorem c1_null_alloc_typeerror :
    isc prConst prfId pfnVec pfnMat Dex true true 1000 false 0 .float64 = .error .typeError ∧
    isfc ccConst prfId pfnMat pfnTen Dex true true 1000 false 0 .float64 = .error .typeError :=
  ⟨rfl, rfl⟩

/-- C2: with `return_p=False` and `collapse_subj=False` (and the default
float64 precision), `isc` returns the `[voxel, subject]` array whose entry
`(i, j)` is the Pearson correlation (the abstract `pearsonr` kernel `pr`)
between the voxel-wise mean of all subjects' series except subject `j` and
subject `j`'s series at voxel `i`. -/
theorem c2_isc_entries_pearson (pr : (n : Nat) → (Fin n → ℚ) → (Fin n → ℚ) → ℚ)
    (prf : {v' t' s' : Nat} → NTen v' t' s' → ℤ → NTen v' t' s')
    (pfn1 : (n : Nat) → NVec n → Bool → Bool → NDArr → NDArr → NVec n)
    (pfn2 : (r c : Nat) → NMat r c → Bool → Bool → NDArr → NDArr → NMat r c)
    {v t s : Nat} (D : NTen v t s) (np : ℤ) (ts : Bool) (rs : ℤ) :
    isc pr prf pfn1 pfn2 D false false np ts rs .float64 =
      .ok (.stat2
        { dtype := .float64
        , val := fun i j =>
            pr t (fun τ => (∑ k : Fin s, if k ≠ j then D.val i τ k else 0) / ((s - 1 : ℕ) : ℚ))
                 (fun τ => D.val i τ j) }) := by
  rw [isc_noP_stat2]
  rfl

/-- C3: for every input and both collapse settings, the array returned by
`isfc` (without permutation testing, which cannot return) is symmetric in
its two voxel axes, because every per-subject correlation matrix is replaced
by `(M + Mᵗ) / 2` before being stored. -/
theorem c3_isfc_symmetric (cc : (a b n : Nat) → NMat a n → NMat b n → NMat a b)
    (prf : {v' t' s' : Nat} → NTen v' t' s' → ℤ → NTen v' t' s')
    (pfn2 : (r c : Nat) → NMat r c → Bool → Bool → NDArr → NDArr → NMat r c)
    (pfn3 : (a b c : Nat) → NTen a b c → Bool → Bool → NDArr → NDArr → NTen a b c)
    {v t s : Nat} (D : NTen v t s) (cs : Bool) (np : ℤ) (ts : Bool) (rs : ℤ) (ft : Dtype) :
    ∃ r, isfc cc prf pfn2 pfn3 D cs false np ts rs ft = .ok r ∧ IsfcRetSymm r := by
  cases cs with
  | false =>
      refine ⟨.stat3 (isfcStatTen cc ft D), isfc_noP_stat3 cc prf pfn2 pfn3 D np ts rs ft, ?_⟩
      intro i j k
      show castVal ft ((tmp_ISFC cc ft D k).val i j) = castVal ft ((tmp_ISFC cc ft D k).val j i)
      rw [tmp_ISFC_symm]
  | true =>
      refine ⟨.stat2 (tenMeanAxis2 (isfcStatTen cc ft D)),
        isfc_noP_stat2 cc prf pfn2 pfn3 D np ts rs ft, ?_⟩
      intro i j
      show (∑ k : Fin s, castVal ft ((tmp_ISFC cc ft D k).val i j)) / (s : ℚ)
         = (∑ k : Fin s, castVal ft ((tmp_ISFC cc ft D k).val j i)) / (s : ℚ)
      congr 1
      refine Finset.sum_congr rfl (fun k _ => ?_)
      rw [tmp_ISFC_symm]

/-- C4: in both `isc` and `isfc` the permutation loop is a strict
left-to-right fold: the loop of the source (`permLoop`, which rebinds `D`
to `phase_randomize(D, random_state)` after every round) equals the spec's
indexed form (`permLoopSpec`), in which round `k` operates on
`roundTensor prf rs D k` — the tensor randomized `k` times cumulatively —
and round `0` (the real statistic) operates on the original, un-randomized
`D`; and the two entry points coincide with their indexed-fold
reformulations `iscViaFold` / `isfcViaFold` for every configuration. -/
theorem c4_perm_loop_cumulative_fold :
    (∀ (v t s : Nat) (σ : Type) (body : Nat → NTen v t s → σ → Except PyErr σ)
        (prf : {v' t' s' : Nat} → NTen v' t' s' → ℤ → NTen v' t' s') (rs : ℤ)
        (r : Nat) (D : NTen v t s) (acc : σ),
        permLoop body prf rs 0 r D acc = permLoopSpec body prf rs D r acc) ∧
    (∀ (pr : (n : Nat) → (Fin n → ℚ) → (Fin n → ℚ) → ℚ)
        (prf : {v' t' s' : Nat} → NTen v' t' s' → ℤ → NTen v' t' s')
        (pfn1 : (n : Nat) → NVec n → Bool → Bool → NDArr → NDArr → NVec n)
        (pfn2 : (r c : Nat) → NMat r c → Bool → Bool → NDArr → NDArr → NMat r c)
        (v t s : Nat) (D : NTen v t s) (cs rp : Bool) (np : ℤ) (ts : Bool) (rs : ℤ) (ft : Dtype),
        isc pr prf pfn1 pfn2 D cs rp np ts rs ft = iscViaFold pr prf pfn1 pfn2 D cs rp np ts rs ft) ∧
    (∀ (cc : (a b n : Nat) → NMat a n → NMat b n → NMat a b)
        (prf : {v' t' s' : Nat} → NTen v' t' s' → ℤ → NTen v' t' s')
        (pfn2 : (r c : Nat) → NMat r c → Bool → Bool → NDArr → NDArr → NMat r c)
        (pfn3 : (a b c : Nat) → NTen a b c → Bool → Bool → NDArr → NDArr → NTen a b c)
        (v t s : Nat) (D : NTen v t s) (cs rp : Bool) (np : ℤ) (ts : Bool) (rs : ℤ) (ft : Dtype),
        isfc cc prf pfn2 pfn3 D cs rp np ts rs ft = isfcViaFold cc prf pfn2 pfn3 D cs rp np ts rs ft) := by
  have hfold : ∀ (v t s : Nat) (σ : Type) (body : Nat → NTen v t s → σ → Except PyErr σ)
      (prf : {v' t' s' : Nat} → NTen v' t' s' → ℤ → NTen v' t' s') (rs : ℤ)
      (r : Nat) (D : NTen v t s) (acc : σ),
      permLoop body prf rs 0 r D acc = permLoopSpec body prf rs D r acc := by
    intro v t s σ body prf rs r D acc
    rw [permLoop_eq_fold]
    unfold permLoopSpec
    simp only [Nat.zero_add]
  refine ⟨hfold, ?_, ?_⟩
  · intro pr prf pfn1 pfn2 v t s D cs rp np ts rs ft
    simp only [isc, iscViaFold, hfold]
  · intro cc prf pfn2 pfn3 v t s D cs rp np ts rs ft
    simp only [isfc, isfcViaFold, hfold]

/-- C5 counterexample: the claim says a `D` with subject axis size `< 2`
makes `isc` and `isfc` fail fast, raising before the permutation loop.  At
the concrete one-subject input `Dex1` both functions complete without
raising (NumPy merely averages an empty selection, producing NaN with a
runtime warning). -/
theorem c5_cx_no_shape_validation :
    exceptOk (isc prConst prfId pfnVec pfnMat Dex1 true false 1000 false 0 .float64) = true ∧
    exceptOk (isfc ccConst prfId pfnMat pfnTen Dex1 true false 1000 false 0 .float64) = true :=
  ⟨rfl, rfl⟩

/-- C5 amended: `isc` and `isfc` perform no shape validation at all — with
`return_p=False` they complete without raising for every rectangular input,
a subject axis of size 1 included (the leave-one-out group average is then
a mean over an empty selection).  Inconsistent voxel/time dimensions across
subjects cannot occur in a well-formed ndarray input. -/
theorem c5_no_shape_validation_amended
    (pr : (n : Nat) → (Fin n → ℚ) → (Fin n → ℚ) → ℚ)
    (cc : (a b n : Nat) → NMat a n → NMat b n → NMat a b)
    (prf : {v' t' s' : Nat} → NTen v' t' s' → ℤ → NTen v' t' s')
    (pfn1 : (n : Nat) → NVec n → Bool → Bool → NDArr → NDArr → NVec n)
    (pfn2 : (r c : Nat) → NMat r c → Bool → Bool → NDArr → NDArr → NMat r c)
    (pfn3 : (a b c : Nat) → NTen a b c → Bool → Bool → NDArr → NDArr → NTen a b c)
    {v t s : Nat} (D : NTen v t s) (cs : Bool) (np : ℤ) (ts : Bool) (rs : ℤ) (ft : Dtype) :
    exceptOk (isc pr prf pfn1 pfn2 D cs false np ts rs ft) = true ∧
    exceptOk (isfc cc prf pfn2 pfn3 D cs false np ts rs ft) = true := by
  cases cs with
  | false =>
      rw [isc_noP_stat2, isfc_noP_stat3]
      exact ⟨rfl, rfl⟩
  | true =>
      rw [isc_noP_stat1, isfc_noP_stat2]
      exact ⟨rfl, rfl⟩

/-- C6 counterexample: the claim says every invalid configuration — a
`float_type` outside the supported float set among them — makes `isc` and
`isfc` fail fast with a configuration error.  With `float_type = int64`
(outside the supported `{float16, float32, float64}`) `isc` completes
silently, returning a statistic array of dtype int64. -/
theorem c6_cx_invalid_config_silent :
    Except.map IscRet.statDtype
      (isc prConst prfId pfnVec pfnMat Dex false false 1000 false 0 .int64) = .ok .int64 :=
  rfl

/-- C6 amended: `isc` and `isfc` perform no configuration validation.  A
`float_type` outside the supported float set that NumPy still accepts as a
dtype (such as int64) is applied silently and the call completes, the
statistic carrying that dtype; a negative `num_perm` with `return_p=True`
raises only an incidental `TypeError`, because `num_perm` is misused as the
dtype argument of `np.empty` (lines 91–92 / 176–177), not because of any
configuration check. -/
theorem c6_config_errors_amended
    (pr : (n : Nat) → (Fin n → ℚ) → (Fin n → ℚ) → ℚ)
    (cc : (a b n : Nat) → NMat a n → NMat b n → NMat a b)
    (prf : {v' t' s' : Nat} → NTen v' t' s' → ℤ → NTen v' t' s')
    (pfn1 : (n : Nat) → NVec n → Bool → Bool → NDArr → NDArr → NVec n)
    (pfn2 : (r c : Nat) → NMat r c → Bool → Bool → NDArr → NDArr → NMat r c)
    (pfn3 : (a b c : Nat) → NTen a b c → Bool → Bool → NDArr → NDArr → NTen a b c)
    {v t s : Nat} (D : NTen v t s) (ts : Bool) (rs : ℤ) :
    (Except.map IscRet.statDtype
      (isc pr prf pfn1 pfn2 D false false 1000 ts rs .int64) = .ok .int64) ∧
    (Except.map IsfcRet.statDtype
      (isfc cc prf pfn2 pfn3 D false false 1000 ts rs .int64) = .ok .int64) ∧
    (isc pr prf pfn1 pfn2 D true true (-5) ts rs .float64 = .error .typeError) ∧
    (isfc cc prf pfn2 pfn3 D true true (-5) ts rs .float64 = .error .typeError) := by
  refine ⟨?_, ?_, rfl, rfl⟩
  · rw [isc_noP_stat2]
    rfl
  · rw [isfc_noP_stat3]
    rfl

/-- C7: with `return_p=False`, `isc` returns a 1-D array of length `n_vox`
when `collapse_subj=True` and a `[n_vox, n_subj]` array when
`collapse_subj=False`, and the collapsed result is exactly the mean of the
uncollapsed result over the subject axis. -/
theorem c7_isc_shapes_collapse_mean
    (pr : (n : Nat) → (Fin n → ℚ) → (Fin n → ℚ) → ℚ)
    (prf : {v' t' s' : Nat} → NTen v' t' s' → ℤ → NTen v' t' s')
    (pfn1 : (n : Nat) → NVec n → Bool → Bool → NDArr → NDArr → NVec n)
    (pfn2 : (r c : Nat) → NMat r c → Bool → Bool → NDArr → NDArr → NMat r c)
    {v t s : Nat} (D : NTen v t s) (np : ℤ) (ts : Bool) (rs : ℤ) (ft : Dtype) :
    ∃ (A : NVec v) (M : NMat v s),
      isc pr prf pfn1 pfn2 D true false np ts rs ft = .ok (.stat1 A) ∧
      isc pr prf pfn1 pfn2 D false false np ts rs ft = .ok (.stat2 M) ∧
      ∀ i, A.val i = (∑ j : Fin s, M.val i j) / (s : ℚ) :=
  ⟨matMeanAxis1 (iscStatMat pr ft D), iscStatMat pr ft D,
    isc_noP_stat1 pr prf pfn1 pfn2 D np ts rs ft,
    isc_noP_stat2 pr prf pfn1 pfn2 D np ts rs ft,
    fun _ => rfl⟩

/-- C8 counterexample: the claim says `float_type` is applied to every array
allocated during execution.  Running `isc` on the float64 input `Dex` with
`float_type = float16`, the intermediate `group` of line 102 — the
leave-one-out average `np.mean(D[:, :, mask], axis=2)`, which the code never
casts — has dtype float64, not float16, while the returned statistic does
carry float16. -/
theorem c8_cx_group_dtype :
    (groupMean Dex (0 : Fin 2)).dtype = .float64 ∧
    Dtype.float64 ≠ .float16 ∧
    Except.map IscRet.statDtype
      (isc prConst prfId pfnVec pfnMat Dex false false 1000 false 0 .float16) = .ok .float16 :=
  ⟨rfl, by decide, rfl⟩

/-- C8 amended: `float_type` is applied to the explicitly `.astype`-cast
allocations — the statistic arrays, the per-subject temporaries and the
null summaries — and the uncollapsed statistic is returned with that dtype
(the collapsed one with NumPy's mean promotion of it); but the
intermediates derived from `D` keep `D`'s dtype: the leave-one-out group
average has dtype `meanDtype D.dtype` and the subject slice has `D.dtype`,
whatever `float_type` was requested (the symmetrized `tmp_ISFC` also passes
through NumPy's true-division promotion, `meanDtype float_type`). -/
theorem c8_dtype_application_amended
    (pr : (n : Nat) → (Fin n → ℚ) → (Fin n → ℚ) → ℚ)
    (cc : (a b n : Nat) → NMat a n → NMat b n → NMat a b)
    (prf : {v' t' s' : Nat} → NTen v' t' s' → ℤ → NTen v' t' s')
    (pfn1 : (n : Nat) → NVec n → Bool → Bool → NDArr → NDArr → NVec n)
    (pfn2 : (r c : Nat) → NMat r c → Bool → Bool → NDArr → NDArr → NMat r c)
    (pfn3 : (a b c : Nat) → NTen a b c → Bool → Bool → NDArr → NDArr → NTen a b c)
    {v t s : Nat} (D : NTen v t s) (np : ℤ) (ts : Bool) (rs : ℤ) (ft : Dtype) (loo : Fin s) :
    (Except.map IscRet.statDtype (isc pr prf pfn1 pfn2 D false false np ts rs ft) = .ok ft) ∧
    (Except.map IscRet.statDtype (isc pr prf pfn1 pfn2 D true false np ts rs ft)
      = .ok (meanDtype ft)) ∧
    (Except.map IsfcRet.statDtype (isfc cc prf pfn2 pfn3 D false false np ts rs ft) = .ok ft) ∧
    (tmp_ISC pr ft D loo).dtype = ft ∧
    (tmp_ISFC cc ft D loo).dtype = meanDtype ft ∧
    (groupMean D loo).dtype = meanDtype D.dtype ∧
    (subjSlice D loo).dtype = D.dtype := by
  refine ⟨?_, ?_, ?_, rfl, rfl, rfl, rfl⟩
  · rw [isc_noP_stat2]
    rfl
  · rw [isc_noP_stat1]
    rfl
  · rw [isfc_noP_stat3]
    rfl

/-- C9: in the store-level embedding — where every element assignment of
the source is a store write and `phase_randomize` is, per its contract, a
pure collaborator returning a freshly allocated tensor — `isc` and `isfc`
leave the caller's input object untouched: after either call the store
still holds the original value at the caller's id (for any configuration,
including the raising ones). -/
theorem c9_no_mutation_of_caller_tensor
    (pr : (n : Nat) → (Fin n → ℚ) → (Fin n → ℚ) → ℚ)
    (cc : (a b n : Nat) → NMat a n → NMat b n → NMat a b)
    (prf : {v' t' s' : Nat} → NTen v' t' s' → ℤ → NTen v' t' s')
    (pfn1 : (n : Nat) → NVec n → Bool → Bool → NDArr → NDArr → NVec n)
    (pfn2 : (r c : Nat) → NMat r c → Bool → Bool → NDArr → NDArr → NMat r c)
    (pfn3 : (a b c : Nat) → NTen a b c → Bool → Bool → NDArr → NDArr → NTen a b c)
    (h0 : Heap) (dId : Nat) (cs rp : Bool) (np : ℤ) (ts : Bool) (rs : ℤ) (ft : Dtype)
    (hlt : dId < h0.ctr) :
    (iscHeap pr prf pfn1 pfn2 h0 dId cs rp np ts rs ft).2.mem dId = h0.mem dId ∧
    (isfcHeap cc prf pfn2 pfn3 h0 dId cs rp np ts rs ft).2.mem dId = h0.mem dId :=
  ⟨(iscHeap_ext pr prf pfn1 pfn2 h0 dId cs rp np ts rs ft hlt).2,
   (isfcHeap_ext cc prf pfn2 pfn3 h0 dId cs rp np ts rs ft hlt).2⟩

/-- C9 witness: the frame theorem applied at the concrete store `heapEx`,
whose id 0 holds the tensor `Dex`. -/
theorem c9_no_mutation_witness :
    0 < heapEx.ctr ∧
    (iscHeap prConst prfId pfnVec pfnMat heapEx 0 true false 1000 false 0 .float64).2.mem 0
      = heapEx.mem 0 ∧
    (isfcHeap ccConst prfId pfnMat pfnTen heapEx 0 true false 1000 false 0 .float64).2.mem 0
      = heapEx.mem 0 :=
  ⟨by decide,
   (c9_no_mutation_of_caller_tensor prConst ccConst prfId pfnVec pfnMat pfnTen heapEx 0
      true false 1000 false 0 .float64 (by decide)).1,
   (c9_no_mutation_of_caller_tensor prConst ccConst prfId pfnVec pfnMat pfnTen heapEx 0
      true false 1000 false 0 .float64 (by decide)).2⟩

/-- C10: with `return_p=False` the values returned by `isc` and `isfc` do
not depend on `random_state` or on the behavior of `phase_randomize`: runs
with two arbitrary collaborators and two arbitrary seeds return the same
result (the loop runs only the `p = 0` round; the one trailing
`phase_randomize` call is dropped unread). -/
theorem c10_noninterference_random_source
    (pr : (n : Nat) → (Fin n → ℚ) → (Fin n → ℚ) → ℚ)
    (cc : (a b n : Nat) → NMat a n → NMat b n → NMat a b)
    (prf1 prf2 : {v' t' s' : Nat} → NTen v' t' s' → ℤ → NTen v' t' s')
    (pfn1 : (n : Nat) → NVec n → Bool → Bool → NDArr → NDArr → NVec n)
    (pfn2 : (r c : Nat) → NMat r c → Bool → Bool → NDArr → NDArr → NMat r c)
    (pfn3 : (a b c : Nat) → NTen a b c → Bool → Bool → NDArr → NDArr → NTen a b c)
    (rs1 rs2 : ℤ) {v t s : Nat} (D : NTen v t s) (cs : Bool) (np : ℤ) (ts : Bool) (ft : Dtype) :
    isc pr prf1 pfn1 pfn2 D cs false np ts rs1 ft
      = isc pr prf2 pfn1 pfn2 D cs false np ts rs2 ft ∧
    isfc cc prf1 pfn2 pfn3 D cs false np ts rs1 ft
      = isfc cc prf2 pfn2 pfn3 D cs false np ts rs2 ft := by
  cases cs with
  | false =>
      rw [isc_noP_stat2, isc_noP_stat2, isfc_noP_stat3, isfc_noP_stat3]
      exact ⟨rfl, rfl⟩
  | true =>
      rw [isc_noP_stat1, isc_noP_stat1, isfc_noP_stat2, isfc_noP_stat2]
      exact ⟨rfl, rfl⟩

end Brainiak
